import Mathlib

/-!
# Verification of the whitelist native-messaging bridge

A shallow embedding, in Lean 4, of the two Python native-messaging host
scripts of this repository:

* `src/firefox-extension/native/openpath-native-host.py`
* `src/firefox-extension/native/whitelist-native-host.py` (legacy variant)

The embedding models:

* the JSON values exchanged on the wire (`Json`), together with models of
  Python's `json.dumps` (`dumps`) and `json.loads` (`loads`);
* the Native Messaging frame codec (`read_message`, `send_message`),
  with byte streams as `List Nat` and the 4-byte little-endian
  (x86 native order) length prefix;
* the per-domain sanitizer embedded in `check_domains`, including models of
  Python's `str.strip` / `str.lower` / `str.isalnum`;
* the request dispatcher `handle_message` of both script variants, with all
  subprocess interactions abstracted into an environment `HostEnv`;
* the main read/dispatch/respond loop (`runLoop`).

Python exceptions are modelled with `Except PyErr`; a raised exception
propagating out of a handler is an `Except.error`.

Modelling notes (stated once here, referenced by the doc comments below):

* Python string semantics (`isalnum`, `lower`, `strip`, regex `\s`) are
  Unicode-based.  The models here are exact for every code point below
  `0x100` (ASCII and Latin-1, checked against CPython); code points at or
  above `0x100` are treated conservatively (not alphanumeric, not
  whitespace, case-fixed).  Every concrete string appearing in the scripts
  and in the claims lies in the modelled range except the marker `'→'`,
  which is a symbol (not alphanumeric, not whitespace) in Python as well.
* JSON numbers are modelled as integers; float-valued payloads are outside
  the model.
-/

set_option maxHeartbeats 4000000

namespace Whitelist

/-! ## Decimal and hexadecimal digits -/

/-- ASCII decimal digit test (the only digits relevant to JSON number
syntax). -/
def isDigitC (c : Char) : Bool := 48 ≤ c.toNat && c.toNat ≤ 57

/-- The ASCII character of the decimal digit `n` (for `n < 10`). -/
def digitChar (n : Nat) : Char := Char.ofNat (48 + n)

/-- The decimal representation of a natural number, most significant digit
first, as produced by Python's `str`/`repr` of a nonnegative `int`. -/
def natToChars (n : Nat) : List Char :=
  if _h : n < 10 then [digitChar n]
  else natToChars (n / 10) ++ [digitChar (n % 10)]
  decreasing_by exact Nat.div_lt_self (by omega) (by omega)

/-- Numeric value of a list of ASCII decimal digits. -/
def digitsVal (ds : List Char) : Nat := ds.foldl (fun a c => 10 * a + (c.toNat - 48)) 0

/-- Lower-case hexadecimal digit for `k < 16`, as produced by Python's
`json` encoder in `\uXXXX` escapes. -/
def hexDigitChar (k : Nat) : Char := Char.ofNat (if k < 10 then 48 + k else 87 + k)

/-- Hexadecimal digit test (upper or lower case), as accepted by Python's
`json` string scanner. -/
def isHexDigit (c : Char) : Bool :=
  let n := c.toNat
  (48 ≤ n && n ≤ 57) || (97 ≤ n && n ≤ 102) || (65 ≤ n && n ≤ 70)

/-- Value of a hexadecimal digit character (meaningful when `isHexDigit`
holds). -/
def hexValT (c : Char) : Nat :=
  let n := c.toNat
  if 48 ≤ n && n ≤ 57 then n - 48
  else if 97 ≤ n && n ≤ 102 then n - 87
  else n - 55

/-- Combined value of four hexadecimal digits. -/
def hexQuadVal (h1 h2 h3 h4 : Char) : Nat :=
  4096 * hexValT h1 + 256 * hexValT h2 + 16 * hexValT h3 + hexValT h4

/-- Four-digit lower-case hex rendering of `m % 0x10000`. -/
def hex4 (m : Nat) : List Char :=
  [hexDigitChar (m / 4096 % 16), hexDigitChar (m / 256 % 16),
   hexDigitChar (m / 16 % 16), hexDigitChar (m % 16)]

/-! ## JSON values

`Json` models the values produced by `json.loads` and consumed by
`json.dumps` in the scripts: `None`, `bool`, `int`, `str`, `list`, `dict`
(association list in insertion order).  Floats are outside the model. -/

inductive Json where
  | null
  | bool (b : Bool)
  | int (n : Int)
  | str (s : String)
  | arr (xs : List Json)
  | obj (kvs : List (String × Json))

/-- The decimal rendering of a Python `int`, as in `json.dumps`. -/
def intChars (n : Int) : List Char :=
  if n < 0 then '-' :: natToChars n.natAbs else natToChars n.toNat

/-- Escape sequence `\uXXXX` for `m % 0x10000`. -/
def uEscape (m : Nat) : List Char := '\\' :: 'u' :: hex4 m

/-- Model of the per-character escaping of CPython's
`json.encoder.py_encode_basestring_ascii` (the default `ensure_ascii=True`
encoder): `"` and `\` are backslash-escaped, the five control characters
with short escapes use them, every other character outside printable ASCII
`0x20`–`0x7E` becomes `\uXXXX` (a surrogate pair for astral code points),
and printable ASCII is emitted verbatim. -/
def escapeChar (c : Char) : List Char :=
  let n := c.toNat
  if c = '"' then ['\\', '"']
  else if c = '\\' then ['\\', '\\']
  else if n = 10 then ['\\', 'n']
  else if n = 9 then ['\\', 't']
  else if n = 13 then ['\\', 'r']
  else if n = 8 then ['\\', 'b']
  else if n = 12 then ['\\', 'f']
  else if n < 32 ∨ 126 < n then
    if n ≤ 0xffff then uEscape n
    else uEscape (0xd800 + (n - 0x10000) / 1024) ++ uEscape (0xdc00 + (n - 0x10000) % 1024)
  else [c]

/-- The JSON rendering of a Python `str`: quote, escaped body, quote. -/
def strChars (s : String) : List Char := '"' :: (s.data.flatMap escapeChar ++ ['"'])

mutual

/-- Model of `json.dumps` with CPython's defaults (`ensure_ascii=True`,
separators `", "` and `": "`, insertion-ordered dict keys), producing the
character list of the output string.  The output is pure ASCII. -/
def dumps : Json → List Char
  | .null => 'n' :: "ull".data
  | .bool b => if b then 't' :: "rue".data else 'f' :: "alse".data
  | .int n => intChars n
  | .str s => strChars s
  | .arr xs => '[' :: (dumpsList xs ++ [']'])
  | .obj kvs => '{' :: (dumpsMembers kvs ++ ['}'])

/-- Comma-space separated renderings of the elements of a JSON array. -/
def dumpsList : List Json → List Char
  | [] => []
  | v :: vs => dumps v ++ dumpsSepList vs

/-- The `", elem"` continuation of an array rendering. -/
def dumpsSepList : List Json → List Char
  | [] => []
  | v :: vs => ',' :: ' ' :: (dumps v ++ dumpsSepList vs)

/-- Comma-space separated renderings of the members of a JSON object. -/
def dumpsMembers : List (String × Json) → List Char
  | [] => []
  | (k, v) :: kvs => strChars k ++ (':' :: ' ' :: (dumps v ++ dumpsSepMembers kvs))

/-- The `", key: value"` continuation of an object rendering. -/
def dumpsSepMembers : List (String × Json) → List Char
  | [] => []
  | (k, v) :: kvs => ',' :: ' ' :: (strChars k ++ (':' :: ' ' :: (dumps v ++ dumpsSepMembers kvs)))

end

/-- Key-membership test on an association list. -/
def hasKeyB (kvs : List (String × Json)) (k : String) : Bool :=
  match kvs with
  | [] => false
  | (k2, _) :: rest => k2 == k || hasKeyB rest k

/-- Well-formedness of a JSON value as a Python value: every object has
duplicate-free keys (Python dicts cannot hold duplicates). -/
def wfB : Json → Bool
  | .null => true
  | .bool _ => true
  | .int _ => true
  | .str _ => true
  | .arr [] => true
  | .arr (x :: xs) => wfB x && wfB (.arr xs)
  | .obj [] => true
  | .obj ((k, v) :: kvs) => !hasKeyB kvs k && wfB v && wfB (.obj kvs)

/-! ## Model of `json.loads`

A recursive-descent parser over character lists, modelling CPython's
`json.loads`.  Scope of the model (see the header): numbers are integers
only (a fractional part or exponent makes the parse fail, where Python
would produce a float); objects are returned as association lists in parse
order (Python merges duplicate keys, keeping the last value — payloads
with duplicate keys are outside the model, and the round-trip theorem
assumes well-formed, duplicate-free values); lone surrogate escapes are
rejected (Python would build a surrogate-carrying `str`, which cannot
reach `json.dumps` output for valid text).  On the canonical output of
`json.dumps` the model agrees with CPython. -/

/-- JSON whitespace, as skipped by Python's `json` scanner. -/
def isJsonWs (c : Char) : Bool := c = ' ' || c = '\t' || c = '\n' || c = Char.ofNat 13

/-- Skip leading JSON whitespace. -/
def skipWs (l : List Char) : List Char := l.dropWhile isJsonWs

/-- Parse a nonempty run of decimal digits as a natural number, rejecting a
following fractional part or exponent (floats are outside the model). -/
def parseDigits (l : List Char) : Option (Nat × List Char) :=
  if (l.takeWhile isDigitC).isEmpty then none
  else
    match l.drop (l.takeWhile isDigitC).length with
    | [] => some (digitsVal (l.takeWhile isDigitC), [])
    | c :: t =>
      if c = '.' ∨ c = 'e' ∨ c = 'E' then none
      else some (digitsVal (l.takeWhile isDigitC), c :: t)

/-- Parse a JSON integer (optional leading minus). -/
def parseNumber (l : List Char) : Option (Json × List Char) :=
  match l with
  | [] => none
  | c :: t =>
    if c = '-' then (parseDigits t).map (fun p => (Json.int (-(p.1 : Int)), p.2))
    else (parseDigits (c :: t)).map (fun p => (Json.int (p.1 : Int), p.2))

/-- Decoding of the single-character backslash escapes accepted by
Python's `json` string scanner. -/
def escMap (e : Char) : Option Char :=
  if e = '"' then some '"'
  else if e = '\\' then some '\\'
  else if e = '/' then some '/'
  else if e = 'b' then some (Char.ofNat 8)
  else if e = 'f' then some (Char.ofNat 12)
  else if e = 'n' then some '\n'
  else if e = 'r' then some (Char.ofNat 13)
  else if e = 't' then some (Char.ofNat 9)
  else none

/-- Scan a `uXXXX` hex quad (the part after `\u`), yielding the code unit
and the remaining input. -/
def escU (l : List Char) : Option (Nat × List Char) :=
  match l with
  | h1 :: h2 :: h3 :: h4 :: rest =>
    if isHexDigit h1 && isHexDigit h2 && isHexDigit h3 && isHexDigit h4 then
      some (hexQuadVal h1 h2 h3 h4, rest)
    else none
  | _ => none

/-- Scan one backslash escape (the part after the backslash), yielding the
scanned UTF-16 code unit and the remaining input. -/
def escUnit (l : List Char) : Option (Nat × List Char) :=
  match l with
  | [] => none
  | e :: rest =>
    if e = 'u' then escU rest
    else (escMap e).map (fun d => (d.toNat, rest))

/-- Scan the body of a JSON string after the opening quote, up to and
including the closing quote, producing the sequence of UTF-16 code units
(as scanned by CPython's `json` scanner: `\uXXXX` escapes may denote
surrogate halves) and the remaining input.  Raw control characters are
rejected (strict mode).  Fuel-indexed; each step consumes at least one
input character, so fuel exceeding the input length never runs out. -/
def scanUnits : Nat → List Char → Option (List Nat × List Char)
  | 0, _ => none
  | _ + 1, [] => none
  | f + 1, c :: rest =>
    if c = '"' then some ([], rest)
    else if c = '\\' then
      (escUnit rest).bind (fun p => (scanUnits f p.2).map (fun q => (p.1 :: q.1, q.2)))
    else if c.toNat < 32 then none
    else (scanUnits f rest).map (fun q => (c.toNat :: q.1, q.2))

/-- Combine a sequence of UTF-16 code units into characters: a high
surrogate must be followed by a low surrogate (the pair becomes one code
point, as CPython combines `\uXXXX` pairs), and a lone surrogate is
rejected (Python would build a surrogate-carrying `str`; outside the
model's scope as stated above). -/
def combineUnits : List Nat → Option (List Char)
  | [] => some []
  | [u] =>
    if 0xd800 ≤ u ∧ u ≤ 0xdfff then none else some [Char.ofNat u]
  | u :: u2 :: us =>
    if 0xd800 ≤ u ∧ u ≤ 0xdbff then
      if 0xdc00 ≤ u2 ∧ u2 ≤ 0xdfff then
        (combineUnits us).map (Char.ofNat (0x10000 + 1024 * (u - 0xd800) + (u2 - 0xdc00)) :: ·)
      else none
    else if 0xdc00 ≤ u ∧ u ≤ 0xdfff then none
    else (combineUnits (u2 :: us)).map (Char.ofNat u :: ·)

/-- Parse the body of a JSON string after the opening quote, up to and
including the closing quote: scan the escape units, then combine
surrogate pairs. -/
def parseStringBody (fuel : Nat) (l : List Char) : Option (List Char × List Char) :=
  (scanUnits fuel l).bind (fun p => (combineUnits p.1).map (fun cs => (cs, p.2)))

mutual

/-- Parse one JSON value (fuel-indexed recursive descent).  With fuel
exceeding the input length this models Python's scanner on integer-only,
surrogate-free JSON text. -/
def parseValue : Nat → List Char → Option (Json × List Char)
  | 0, _ => none
  | f + 1, input =>
    match skipWs input with
    | [] => none
    | c :: r =>
      if c = 'n' then match r with | 'u' :: 'l' :: 'l' :: r2 => some (.null, r2) | _ => none
      else if c = 't' then match r with | 'r' :: 'u' :: 'e' :: r2 => some (.bool true, r2) | _ => none
      else if c = 'f' then match r with | 'a' :: 'l' :: 's' :: 'e' :: r2 => some (.bool false, r2) | _ => none
      else if c = '"' then (parseStringBody f r).map (fun p => (.str (String.mk p.1), p.2))
      else if c = '[' then parseArrTail f r
      else if c = '{' then parseObjTail f r
      else parseNumber (c :: r)

/-- Parse the remainder of an array after the opening bracket. -/
def parseArrTail : Nat → List Char → Option (Json × List Char)
  | 0, _ => none
  | f + 1, input =>
    match skipWs input with
    | [] => none
    | c :: r =>
      if c = ']' then some (.arr [], r)
      else
        match parseValue f (c :: r) with
        | none => none
        | some (v, r2) =>
          match parseArrRest f r2 with
          | none => none
          | some (vs, r3) => some (.arr (v :: vs), r3)

/-- Parse the continuation of an array: a comma and a value, repeated,
then the closing bracket. -/
def parseArrRest : Nat → List Char → Option (List Json × List Char)
  | 0, _ => none
  | f + 1, input =>
    match skipWs input with
    | ']' :: r => some ([], r)
    | ',' :: r =>
      match parseValue f r with
      | none => none
      | some (v, r2) =>
        match parseArrRest f r2 with
        | none => none
        | some (vs, r3) => some (v :: vs, r3)
    | _ => none

/-- Parse the remainder of an object after the opening brace. -/
def parseObjTail : Nat → List Char → Option (Json × List Char)
  | 0, _ => none
  | f + 1, input =>
    match skipWs input with
    | '}' :: r => some (.obj [], r)
    | '"' :: r =>
      match parseStringBody f r with
      | none => none
      | some (k, r2) =>
        match skipWs r2 with
        | ':' :: r3 =>
          match parseValue f r3 with
          | none => none
          | some (v, r4) =>
            match parseObjRest f r4 with
            | none => none
            | some (kvs, r5) => some (.obj ((String.mk k, v) :: kvs), r5)
        | _ => none
    | _ => none

/-- Parse the continuation of an object: a comma and a member, repeated,
then the closing brace. -/
def parseObjRest : Nat → List Char → Option (List (String × Json) × List Char)
  | 0, _ => none
  | f + 1, input =>
    match skipWs input with
    | '}' :: r => some ([], r)
    | ',' :: r =>
      match skipWs r with
      | '"' :: r2 =>
        match parseStringBody f r2 with
        | none => none
        | some (k, r3) =>
          match skipWs r3 with
          | ':' :: r4 =>
            match parseValue f r4 with
            | none => none
            | some (v, r5) =>
              match parseObjRest f r5 with
              | none => none
              | some (kvs, r6) => some ((String.mk k, v) :: kvs, r6)
          | _ => none
      | _ => none
    | _ => none

end

/-- Model of `json.loads`: parse one value and require only whitespace to
remain (Python raises "Extra data" otherwise). -/
def loads (cs : List Char) : Option Json :=
  match parseValue (cs.length + 1) cs with
  | some (v, rest) => if skipWs rest = [] then some v else none
  | none => none

/-- Heads that may legally follow a JSON number in its context. -/
def numSafe (l : List Char) : Prop :=
  match l with
  | [] => True
  | c :: _ => isDigitC c = false ∧ c ≠ '.' ∧ c ≠ 'e' ∧ c ≠ 'E'

/-- UTF-16 code units of one character, as scanned back from its
`escapeChar` rendering. -/
def charUnits (c : Char) : List Nat :=
  if c.toNat < 0x10000 then [c.toNat]
  else [0xd800 + (c.toNat - 0x10000) / 1024, 0xdc00 + (c.toNat - 0x10000) % 1024]

/-! ## Byte-level codec

Byte streams are `List Nat` (each entry `< 256`).  `read_message` models
`read_message` of both scripts, with `sys.stdin.buffer.read(n)` modelled
by `List.take n` on the remaining stream (a blocking buffered read returns
up to `n` bytes, fewer only at end of stream). -/

/-- Python exception classes that can propagate out of the modelled code. -/
inductive PyErr where
  | structError
  | unicodeDecodeError
  | jsonDecodeError
  | typeError

/-- Outcome of one `read_message` call: end-of-stream (`None` in Python),
a raised exception, or a decoded JSON message. -/
inductive ReadResult where
  | eof
  | err (e : PyErr)
  | msg (v : Json)

/-- UTF-8 encoding of one character (RFC 3629). -/
def utf8EncodeChar (c : Char) : List Nat :=
  let n := c.toNat
  if n < 0x80 then [n]
  else if n < 0x800 then [0xc0 + n / 64, 0x80 + n % 64]
  else if n < 0x10000 then [0xe0 + n / 4096, 0x80 + n / 64 % 64, 0x80 + n % 64]
  else [0xf0 + n / 262144, 0x80 + n / 4096 % 64, 0x80 + n / 64 % 64, 0x80 + n % 64]

/-- UTF-8 encoding of a string, as Python's `str.encode('utf-8')`. -/
def utf8Encode (cs : List Char) : List Nat := cs.flatMap utf8EncodeChar

/-- Continuation byte test. -/
def isCont (b : Nat) : Bool := 0x80 ≤ b && b < 0xc0

/-- Read one continuation byte after lead byte `b` of a 2-byte sequence. -/
def utf8Cont1 (b : Nat) (l : List Nat) : Option (Nat × List Nat) :=
  match l with
  | b2 :: rest => if isCont b2 then some ((b - 0xc0) * 64 + (b2 - 0x80), rest) else none
  | [] => none

/-- Read two continuation bytes after lead byte `b` of a 3-byte sequence. -/
def utf8Cont2 (b : Nat) (l : List Nat) : Option (Nat × List Nat) :=
  match l with
  | b2 :: b3 :: rest =>
    if isCont b2 && isCont b3 then
      some ((b - 0xe0) * 4096 + (b2 - 0x80) * 64 + (b3 - 0x80), rest)
    else none
  | _ => none

/-- Read three continuation bytes after lead byte `b` of a 4-byte
sequence. -/
def utf8Cont3 (b : Nat) (l : List Nat) : Option (Nat × List Nat) :=
  match l with
  | b2 :: b3 :: b4 :: rest =>
    if isCont b2 && isCont b3 && isCont b4 then
      some ((b - 0xf0) * 262144 + (b2 - 0x80) * 4096 + (b3 - 0x80) * 64 + (b4 - 0x80), rest)
    else none
  | _ => none

/-- Fuel-indexed strict UTF-8 decoding, as Python's
`bytes.decode('utf-8')`: rejects stray or missing continuation bytes,
overlong encodings, surrogates and out-of-range code points (`none` where
Python raises `UnicodeDecodeError`).  Each step consumes at least one
byte, so fuel exceeding the input length never runs out. -/
def utf8DecodeF : Nat → List Nat → Option (List Char)
  | 0, _ => none
  | _ + 1, [] => some []
  | f + 1, b :: rest =>
    if b < 0x80 then (utf8DecodeF f rest).map (Char.ofNat b :: ·)
    else if b < 0xc0 then none
    else if b < 0xe0 then
      (utf8Cont1 b rest).bind (fun p =>
        if p.1 < 0x80 then none else (utf8DecodeF f p.2).map (Char.ofNat p.1 :: ·))
    else if b < 0xf0 then
      (utf8Cont2 b rest).bind (fun p =>
        if p.1 < 0x800 ∨ (0xd800 ≤ p.1 ∧ p.1 ≤ 0xdfff) then none
        else (utf8DecodeF f p.2).map (Char.ofNat p.1 :: ·))
    else if b < 0xf8 then
      (utf8Cont3 b rest).bind (fun p =>
        if p.1 < 0x10000 ∨ 0x10ffff < p.1 then none
        else (utf8DecodeF f p.2).map (Char.ofNat p.1 :: ·))
    else none

/-- Strict UTF-8 decoding of a byte list. -/
def utf8Decode (l : List Nat) : Option (List Char) := utf8DecodeF (l.length + 1) l

/-- The 4 bytes of `struct.pack('@I', n)` on x86-64 (little endian). -/
def packLE4 (n : Nat) : List Nat :=
  [n % 256, n / 256 % 256, n / 65536 % 256, n / 16777216 % 256]

/-- The value of `struct.unpack('@I', bytes)[0]` on x86-64 for a 4-byte
buffer (little endian). -/
def unpackLE (bs : List Nat) : Nat :=
  match bs with
  | [b0, b1, b2, b3] => b0 % 256 + 256 * (b1 % 256) + 65536 * (b2 % 256) + 16777216 * (b3 % 256)
  | _ => 0

/-- Reading and decoding of the declared payload: the second
`sys.stdin.buffer.read(message_length)`, `.decode('utf-8')` and
`json.loads` steps of `read_message`.  Returns the outcome together with
the bytes remaining on the stream. -/
def readPayload (len : Nat) (tail : List Nat) : ReadResult × List Nat :=
  let payload := tail.take len
  let rest := tail.drop len
  match utf8Decode payload with
  | none => (.err .unicodeDecodeError, rest)
  | some chars =>
    match loads chars with
    | none => (.err .jsonDecodeError, rest)
    | some v => (.msg v, rest)

/-- Model of `read_message` (identical in both scripts): read 4 bytes; a
zero-length read means end of stream (`None`); a short 1–3 byte read makes
`struct.unpack('@I', raw_length)` raise `struct.error`; a declared length
over `1024 * 1024` is treated as end of stream; otherwise the payload is
read, UTF-8-decoded and JSON-parsed.  Returns the outcome and the bytes
remaining on the stream. -/
def read_message (input : List Nat) : ReadResult × List Nat :=
  let raw_length := input.take 4
  if raw_length.length = 0 then (.eof, input)
  else if raw_length.length < 4 then (.err .structError, input.drop 4)
  else if unpackLE raw_length > 1024 * 1024 then (.eof, input.drop 4)
  else readPayload (unpackLE raw_length) (input.drop 4)

/-- Model of `send_message` (identical in both scripts): JSON-encode,
UTF-8-encode, and emit a 4-byte native-order length prefix followed by the
payload bytes (`struct.pack('@I', ...)` raises `struct.error` if the
length does not fit in 32 bits). -/
def send_message (v : Json) : Except PyErr (List Nat) :=
  let encoded := utf8Encode (dumps v)
  if encoded.length < 4294967296 then .ok (packLE4 encoded.length ++ encoded)
  else .error .structError

/-! ## Python string semantics

Models of the `str` methods used by the scripts.  Exact for code points
below `0x100` (checked against CPython); code points at or above `0x100`
are treated conservatively, see the header note. -/

/-- Model of Python's `str.isalnum` per character: ASCII digits and
letters, plus the Latin-1 letters and numeric characters
(`ª ² ³ µ ¹ º ¼ ½ ¾` and `À`–`ÿ` except `×` and `÷`). -/
def pyIsAlnum (c : Char) : Bool :=
  let n := c.toNat
  (48 ≤ n && n ≤ 57) || (65 ≤ n && n ≤ 90) || (97 ≤ n && n ≤ 122) ||
  n == 0xaa || n == 0xb2 || n == 0xb3 || n == 0xb5 || n == 0xb9 || n == 0xba ||
  n == 0xbc || n == 0xbd || n == 0xbe ||
  (0xc0 ≤ n && n ≤ 0xff && n != 0xd7 && n != 0xf7)

/-- Model of Python's `str.lower` per character: ASCII `A`–`Z` and
Latin-1 `À`–`Þ` (except `×`) map down by 32, everything else is fixed. -/
def pyLowerChar (c : Char) : Char :=
  let n := c.toNat
  if 65 ≤ n && n ≤ 90 then Char.ofNat (n + 32)
  else if 0xc0 ≤ n && n ≤ 0xde && n != 0xd7 then Char.ofNat (n + 32)
  else c

/-- Model of Python's `str.lower` on strings. -/
def pyLower (s : String) : String := String.mk (s.data.map pyLowerChar)

/-- Whitespace as recognised by Python's `str.strip`/`str.isspace` (and,
for the code points in scope, by the regex class `\s`): ASCII whitespace,
the separator controls `0x1c`–`0x1f`, `0x85` and `0xa0`. -/
def pyIsSpace (c : Char) : Bool :=
  let n := c.toNat
  (9 ≤ n && n ≤ 13) || n == 32 || (28 ≤ n && n ≤ 31) || n == 0x85 || n == 0xa0

/-- Remove leading and trailing whitespace from a character list. -/
def pyStripChars (l : List Char) : List Char :=
  ((l.dropWhile pyIsSpace).reverse.dropWhile pyIsSpace).reverse

/-- Model of Python's `str.strip()` with no arguments. -/
def pyStrip (s : String) : String := String.mk (pyStripChars s.data)

/-- Model of Python's `in` operator on strings: substring containment. -/
def containsSub (needle : List Char) : List Char → Bool
  | [] => needle.isEmpty
  | c :: t => needle.isPrefixOf (c :: t) || containsSub needle t

/-- Model of `re.search(r'→\s*(\S+)', output)` restricted to the group it
captures: after the first `'→'` whose tail is not all whitespace, skip
whitespace and take the maximal nonempty run of non-whitespace characters
(the regex engine advances past an arrow followed only by whitespace). -/
def ipMatch : List Char → Option (List Char)
  | [] => none
  | c :: t =>
    if c = '→' then
      let tok := (t.dropWhile pyIsSpace).takeWhile (fun c2 => !pyIsSpace c2)
      if tok.isEmpty then ipMatch t else some tok
    else ipMatch t

/-! ## Python value formatting

Used only for the f-string `f"Unknown action: {action}"`, identically in
both script variants.  Scalar formatting (`None`, booleans, integers,
plain strings) is exact; the `repr` of strings nested in containers is
simplified to plain single quotes (escape handling inside `repr` is not
modelled — no claim depends on it). -/

mutual

/-- Model of Python's `repr` on the JSON value universe. -/
def pyRepr : Json → List Char
  | .null => ['N', 'o', 'n', 'e']
  | .bool true => ['T', 'r', 'u', 'e']
  | .bool false => ['F', 'a', 'l', 's', 'e']
  | .int n => intChars n
  | .str s => Char.ofNat 39 :: (s.data ++ [Char.ofNat 39])
  | .arr xs => '[' :: (pyReprList xs ++ [']'])
  | .obj kvs => '{' :: (pyReprMembers kvs ++ ['}'])

/-- Comma-space separated list element reprs. -/
def pyReprList : List Json → List Char
  | [] => []
  | v :: vs => pyRepr v ++ pyReprSepList vs

/-- Continuation of a list repr. -/
def pyReprSepList : List Json → List Char
  | [] => []
  | v :: vs => ',' :: ' ' :: (pyRepr v ++ pyReprSepList vs)

/-- Comma-space separated dict member reprs. -/
def pyReprMembers : List (String × Json) → List Char
  | [] => []
  | (k, v) :: kvs =>
    (Char.ofNat 39 :: (k.data ++ [Char.ofNat 39, ':', ' '])) ++ pyRepr v ++ pyReprSepMembers kvs

/-- Continuation of a dict repr. -/
def pyReprSepMembers : List (String × Json) → List Char
  | [] => []
  | (k, v) :: kvs =>
    ',' :: ' ' :: ((Char.ofNat 39 :: (k.data ++ [Char.ofNat 39, ':', ' '])) ++ pyRepr v ++ pyReprSepMembers kvs)

end

/-- Model of Python's `str()` conversion, as used by f-string
interpolation: strings are taken verbatim, other values via `repr`. -/
def pyStr (j : Json) : List Char :=
  match j with
  | .str s => s.data
  | _ => pyRepr j

/-! ## Python dict and truthiness semantics -/

/-- Model of `dict.get(k, dflt)` on an insertion-ordered association list.
Python dicts have unique keys (and `json.loads` merges duplicates), so
first-match lookup is faithful for every value in scope. -/
def dictGet (kvs : List (String × Json)) (k : String) (dflt : Json) : Json :=
  match kvs with
  | [] => dflt
  | (k2, v) :: rest => if k2 = k then v else dictGet rest k dflt

/-- Model of Python truthiness (`bool(x)`) on the JSON value universe. -/
def jsonTruthy : Json → Bool
  | .null => false
  | .bool b => b
  | .int n => n != 0
  | .str s => !s.data.isEmpty
  | .arr xs => !xs.isEmpty
  | .obj kvs => !kvs.isEmpty

/-- Model of `action == "lit"` for a Python value `action` and a string
literal: true exactly when `action` is that string (no cross-type equality
involves `str`). -/
def isAction (a : Json) (s : String) : Bool :=
  match a with
  | .str t => t = s
  | _ => false

/-! ## Subprocess environment

All external effects of the scripts — the whitelist tool, the update
script, and `socket.gethostname()` — abstracted into an environment.
Logging (`log_debug`, `rotate_log_if_needed`) swallows every exception and
has no effect on any response, so it is not modelled. -/

/-- Outcome of one `subprocess.run` call: normal completion with captured
text streams and exit code, `subprocess.TimeoutExpired`, or any other
exception (e.g. a launch failure), carrying `str(e)`. -/
inductive ProcResult where
  | finished (stdout stderr : String) (returncode : Int)
  | timedOut
  | failed (msg : String)

/-- The environment a host process runs against. -/
structure HostEnv where
  check : String → ProcResult
  domains : ProcResult
  status : ProcResult
  hostname : String
  updateScriptExists : Bool
  update : ProcResult

/-- Maximum number of domains considered per `check` request. -/
def MAX_DOMAINS : Nat := 50

/-- Build the `DomainCheckResult` dict, in the key order of the Python
dict literal. -/
def mkCheckResult (domain : String) (inWl resolves : Bool) (ip : Option String) : Json :=
  .obj [("domain", .str domain), ("in_whitelist", .bool inWl), ("resolves", .bool resolves),
        ("resolved_ip", match ip with | some s => .str s | none => .null)]

/-- Model of `check_domain` (identical in both scripts): run
`whitelist check <domain>`; on completion, an affirmative marker in stdout
sets `in_whitelist`, an arrow marker sets `resolves` and the regex capture
sets `resolved_ip`; on timeout or any other exception the defaults are
returned (the failure is only logged). -/
def check_domain (env : HostEnv) (domain : String) : Json :=
  match env.check domain with
  | .finished out _ _ =>
    let inWl := containsSub "SÍ".data out.data || containsSub "YES".data out.data
    if containsSub ['→'] out.data then
      mkCheckResult domain inWl true ((ipMatch out.data).map String.mk)
    else
      mkCheckResult domain inWl false none
  | .timedOut => mkCheckResult domain false false none
  | .failed _ => mkCheckResult domain false false none

/-- Model of the per-entry validation block of `check_domains`: an entry
is kept only if it is a nonempty string whose stripped, lower-cased form
consists of characters that are alphanumeric (per Python's `isalnum`) or
`'.'` or `'-'`; the kept entry is that normalised string.  Every non-string
entry (including booleans, numbers, nested lists) is dropped by the
falsiness or `isinstance` guard. -/
def sanitizeEntry : Json → Option String
  | .str s =>
    if s.data.isEmpty then none
    else
      let t := pyLower (pyStrip s)
      if t.data.all (fun c => pyIsAlnum c || c = '.' || c = '-') then some t else none
  | _ => none

/-- Model of `check_domains` (identical in both scripts): slice the input
to the first `MAX_DOMAINS` entries (`domains[:MAX_DOMAINS]`), validate
each entry, and check the survivors in order.  Slicing a list or a string
succeeds (iterating a string yields its characters as one-character
strings); slicing any other value raises `TypeError`, which propagates —
there is no exception handler in `check_domains` or `handle_message`. -/
def check_domains (env : HostEnv) (domains : Json) : Except PyErr (List Json) :=
  match domains with
  | .arr xs =>
    .ok ((xs.take MAX_DOMAINS).filterMap (fun j => (sanitizeEntry j).map (check_domain env)))
  | .str s =>
    .ok ((s.data.take MAX_DOMAINS).filterMap
      (fun c => (sanitizeEntry (.str (String.mk [c]))).map (check_domain env)))
  | _ => .error .typeError

/-- Model of `get_whitelist_domains` (identical in both scripts): split
stdout on newlines, strip each line, drop empties; any exception yields
the empty list. -/
def get_whitelist_domains (env : HostEnv) : List String :=
  match env.domains with
  | .finished out _ _ =>
    (out.split (fun c => c = '\n')).filterMap
      (fun d => let t := pyStrip d; if t.data.isEmpty then none else some t)
  | _ => []

/-- Model of `get_system_status` (identical in both scripts): the status
dict with raw stdout and the locale-insensitive activity test; any
exception yields empty output and inactive. -/
def get_system_status (env : HostEnv) : Json :=
  match env.status with
  | .finished out _ _ =>
    .obj [("output", .str out),
          ("active", .bool (containsSub "activo".data (pyLower out).data ||
                            containsSub "active".data (pyLower out).data))]
  | _ => .obj [("output", .str ""), ("active", .bool false)]

/-- The failure response for a `check` request with falsy `domains`. -/
def noDomainsResp : Json :=
  .obj [("success", .bool false), ("error", .str "No domains provided")]

/-- The response to a request whose decoded body is not a JSON object. -/
def invalidFormatResp : Json :=
  .obj [("success", .bool false), ("error", .str "Invalid message format")]

/-- The unknown-action failure response. -/
def unknownActionResp (action : Json) : Json :=
  .obj [("success", .bool false),
        ("error", .str (String.mk ("Unknown action: ".data ++ pyStr action)))]

/-- Model of `handle_message` of `openpath-native-host.py`: dispatch on
the `action` field; see the claims for the per-action contracts.  An
exception raised inside `check_domains` propagates (there is no handler);
the `update-whitelist` branch catches its own exceptions. -/
def handle_message (env : HostEnv) (message : Json) : Except PyErr Json :=
  match message with
  | .obj kvs =>
    let action := dictGet kvs "action" (.str "")
    if isAction action "check" then
      let domains := dictGet kvs "domains" (.arr [])
      if !jsonTruthy domains then .ok noDomainsResp
      else
        match check_domains env domains with
        | .error e => .error e
        | .ok results =>
          .ok (.obj [("success", .bool true), ("action", .str "check"), ("results", .arr results)])
    else if isAction action "list" then
      .ok (.obj [("success", .bool true), ("action", .str "list"),
                 ("domains", .arr ((get_whitelist_domains env).map .str))])
    else if isAction action "status" then
      .ok (.obj [("success", .bool true), ("action", .str "status"),
                 ("status", get_system_status env)])
    else if isAction action "ping" then
      .ok (.obj [("success", .bool true), ("action", .str "ping"), ("message", .str "pong")])
    else if isAction action "get-hostname" then
      .ok (.obj [("success", .bool true), ("action", .str "get-hostname"),
                 ("hostname", .str env.hostname)])
    else if isAction action "update-whitelist" then
      .ok (if !env.updateScriptExists then
        .obj [("success", .bool false), ("action", .str "update-whitelist"),
              ("error", .str "Update script not found")]
      else
        match env.update with
        | .finished out errS code =>
          .obj [("success", .bool (code == 0)), ("action", .str "update-whitelist"),
                ("output", .str out),
                ("error", if code == 0 then .null else .str errS)]
        | .timedOut =>
          .obj [("success", .bool false), ("action", .str "update-whitelist"),
                ("error", .str "Update timed out")]
        | .failed m =>
          .obj [("success", .bool false), ("action", .str "update-whitelist"),
                ("error", .str m)])
    else .ok (unknownActionResp action)
  | _ => .ok invalidFormatResp

/-- Model of `handle_message` of the legacy `whitelist-native-host.py`:
identical dispatch, but without the `get-hostname` and `update-whitelist`
branches (those actions fall through to the unknown-action response). -/
def legacy_handle_message (env : HostEnv) (message : Json) : Except PyErr Json :=
  match message with
  | .obj kvs =>
    let action := dictGet kvs "action" (.str "")
    if isAction action "check" then
      let domains := dictGet kvs "domains" (.arr [])
      if !jsonTruthy domains then .ok noDomainsResp
      else
        match check_domains env domains with
        | .error e => .error e
        | .ok results =>
          .ok (.obj [("success", .bool true), ("action", .str "check"), ("results", .arr results)])
    else if isAction action "list" then
      .ok (.obj [("success", .bool true), ("action", .str "list"),
                 ("domains", .arr ((get_whitelist_domains env).map .str))])
    else if isAction action "status" then
      .ok (.obj [("success", .bool true), ("action", .str "status"),
                 ("status", get_system_status env)])
    else if isAction action "ping" then
      .ok (.obj [("success", .bool true), ("action", .str "ping"), ("message", .str "pong")])
    else .ok (unknownActionResp action)
  | _ => .ok invalidFormatResp

/-- Fuel-indexed unfolding of the `while True` loop of `main` (identical
in both scripts): read a frame, dispatch, send exactly one response frame,
repeat; end of stream ends the loop cleanly, and any raised exception
propagates (the process dies without sending a response for the failing
message).  Returns the list of response frames sent.  Fuel only bounds the
number of iterations: every property proved below holds for every fuel. -/
def runLoop (env : HostEnv) : Nat → List Nat → Except PyErr (List (List Nat))
  | 0, _ => .ok []
  | fuel + 1, input =>
    match read_message input with
    | (.eof, _) => .ok []
    | (.err e, _) => .error e
    | (.msg v, rest) =>
      match handle_message env v with
      | .error e => .error e
      | .ok resp =>
        match send_message resp with
        | .error e => .error e
        | .ok out => (runLoop env fuel rest).map (fun outs => out :: outs)

/-! ## Statement helpers and concrete fixtures -/

/-- The `action` value a message dispatches on (the dispatchers' own
lookup, lifted to arbitrary messages for stating the equivalence claim). -/
def actionOf (msg : Json) : Json :=
  match msg with
  | .obj kvs => dictGet kvs "action" (.str "")
  | _ => .str ""

/-- Concrete environment: every subprocess call times out and the update
script is absent. -/
def envT : HostEnv :=
  { check := fun _ => .timedOut, domains := .timedOut, status := .timedOut,
    hostname := "host", updateScriptExists := false, update := .timedOut }

/-- Concrete environment: the update script exists and fails with exit
code 2 and stderr text. -/
def envUfail : HostEnv := { envT with updateScriptExists := true, update := .finished "partial" "boom" 2 }

/-- Concrete environment: the update script exists and succeeds. -/
def envUok : HostEnv := { envT with updateScriptExists := true, update := .finished "done" "" 0 }

/-- Concrete environment: the update script exists and times out. -/
def envUtime : HostEnv := { envT with updateScriptExists := true, update := .timedOut }

/-! ## Character bridge lemmas -/

theorem char_valid_toNat (c : Char) :
    c.toNat < 55296 ∨ (57343 < c.toNat ∧ c.toNat < 1114112) := c.valid

theorem char_toNat_lt (c : Char) : c.toNat < 1114112 := by
  rcases char_valid_toNat c with h | h
  · omega
  · omega

theorem toNat_charOfNat {n : Nat} (h : n < 55296 ∨ (57343 < n ∧ n < 1114112)) :
    (Char.ofNat n).toNat = n := by
  rw [Char.ofNat, dif_pos h]
  rfl

theorem toNat_charOfNat_small {n : Nat} (h : n < 55296) : (Char.ofNat n).toNat = n :=
  toNat_charOfNat (Or.inl h)

theorem char_toNat_inj {c d : Char} (h : c.toNat = d.toNat) : c = d := by
  have h2 := congrArg Char.ofNat h
  rwa [Char.ofNat_toNat, Char.ofNat_toNat] at h2

theorem char_ne_of_toNat_ne {c d : Char} (h : c.toNat ≠ d.toNat) : c ≠ d :=
  fun he => h (congrArg Char.toNat he)

/-- A decimal digit differs from any character that is not a decimal
digit. -/
theorem digit_ne {c k : Char} (h : isDigitC c = true) (hk : isDigitC k = false) : c ≠ k := by
  intro he
  rw [he, hk] at h
  exact Bool.false_ne_true h

theorem isDigitC_iff {c : Char} : isDigitC c = true ↔ 48 ≤ c.toNat ∧ c.toNat ≤ 57 := by
  simp [isDigitC]

/-! ## Decimal rendering lemmas -/

theorem natToChars_ne_nil (n : Nat) : natToChars n ≠ [] := by
  rw [natToChars]
  split
  · simp
  · simp

theorem isDigitC_digitChar {n : Nat} (h : n < 10) : isDigitC (digitChar n) = true := by
  rw [isDigitC_iff, digitChar, toNat_charOfNat_small (by omega)]
  omega

theorem natToChars_all_digit (n : Nat) : ∀ c ∈ natToChars n, isDigitC c = true := by
  induction n using Nat.strong_induction_on with
  | _ n ih =>
    rw [natToChars]
    split
    · next h =>
      intro c hc
      rw [List.mem_singleton] at hc
      rw [hc]
      exact isDigitC_digitChar h
    · next h =>
      intro c hc
      rw [List.mem_append] at hc
      rcases hc with hc | hc
      · exact ih (n / 10) (Nat.div_lt_self (by omega) (by omega)) c hc
      · rw [List.mem_singleton] at hc
        rw [hc]
        exact isDigitC_digitChar (Nat.mod_lt _ (by omega))

theorem digitsVal_append_single (ds : List Char) (d : Char) :
    digitsVal (ds ++ [d]) = 10 * digitsVal ds + (d.toNat - 48) := by
  simp [digitsVal, List.foldl_append]

theorem toNat_digitChar {n : Nat} (h : n < 10) : (digitChar n).toNat = 48 + n := by
  rw [digitChar, toNat_charOfNat_small (by omega)]

theorem digitsVal_natToChars (n : Nat) : digitsVal (natToChars n) = n := by
  induction n using Nat.strong_induction_on with
  | _ n ih =>
    rw [natToChars]
    split
    · next h =>
      simp [digitsVal, toNat_digitChar h]
    · next h =>
      rw [digitsVal_append_single, ih (n / 10) (Nat.div_lt_self (by omega) (by omega)),
        toNat_digitChar (Nat.mod_lt _ (by omega))]
      omega

/-- A list of digits followed by a non-digit-led remainder splits cleanly
under `takeWhile`. -/
theorem takeWhile_digits_append {ds rest : List Char} (hds : ∀ c ∈ ds, isDigitC c = true)
    (hrest : ∀ c, rest.head? = some c → isDigitC c = false) :
    (ds ++ rest).takeWhile isDigitC = ds := by
  induction ds with
  | nil =>
    cases rest with
    | nil => rfl
    | cons c t =>
      simp [List.takeWhile_cons, hrest c rfl]
  | cons c t ih =>
    simp only [List.cons_append, List.takeWhile_cons, hds c (List.mem_cons_self c t)]
    simp [ih (fun x hx => hds x (List.mem_cons_of_mem c hx))]

theorem parseDigits_spec (n : Nat) (rest : List Char) (h : numSafe rest) :
    parseDigits (natToChars n ++ rest) = some (n, rest) := by
  have htake : (natToChars n ++ rest).takeWhile isDigitC = natToChars n := by
    apply takeWhile_digits_append (natToChars_all_digit n)
    intro c hc
    cases rest with
    | nil => simp at hc
    | cons c2 t =>
      simp only [List.head?_cons, Option.some.injEq] at hc
      rw [← hc]
      exact h.1
  rw [parseDigits]
  rw [htake]
  simp only [List.isEmpty_eq_true, natToChars_ne_nil n, if_false, List.drop_left]
  cases rest with
  | nil => rw [digitsVal_natToChars]
  | cons c t =>
    have hno : ¬(c = '.' ∨ c = 'e' ∨ c = 'E') := by
      push_neg
      exact ⟨h.2.1, h.2.2.1, h.2.2.2⟩
    simp only [hno, if_false, digitsVal_natToChars]

theorem parseNumber_spec (m : Int) (rest : List Char) (h : numSafe rest) :
    parseNumber (intChars m ++ rest) = some (.int m, rest) := by
  rw [intChars]
  split
  · next hm =>
    rw [List.cons_append, parseNumber, if_pos rfl, parseDigits_spec _ _ h]
    have hm2 : -((m.natAbs : Nat) : Int) = m := by omega
    simp only [Option.map, hm2]
  · next hm =>
    obtain ⟨c, t, hct⟩ : ∃ c t, natToChars m.toNat = c :: t := by
      cases hnc : natToChars m.toNat with
      | nil => exact absurd hnc (natToChars_ne_nil _)
      | cons c t => exact ⟨c, t, rfl⟩
    have hcd : isDigitC c = true :=
      natToChars_all_digit m.toNat c (by rw [hct]; exact List.mem_cons_self c t)
    rw [hct, List.cons_append, parseNumber,
      if_neg (digit_ne hcd (by rfl)), ← List.cons_append, ← hct, parseDigits_spec _ _ h]
    have hm2 : ((m.toNat : Nat) : Int) = m := by omega
    simp only [Option.map, hm2]

/-! ## String escaping round trip -/

theorem char_eq_ofNat {c : Char} {n : Nat} (h : c.toNat = n) : c = Char.ofNat n := by
  rw [← h, Char.ofNat_toNat]

theorem isHexDigit_hexDigitChar {k : Nat} (h : k < 16) : isHexDigit (hexDigitChar k) = true := by
  interval_cases k <;> rfl

theorem hexValT_hexDigitChar {k : Nat} (h : k < 16) : hexValT (hexDigitChar k) = k := by
  interval_cases k <;> rfl

theorem hexQuadVal_hex4 (x : Nat) (hx : x ≤ 0xffff) :
    hexQuadVal (hexDigitChar (x / 4096 % 16)) (hexDigitChar (x / 256 % 16))
      (hexDigitChar (x / 16 % 16)) (hexDigitChar (x % 16)) = x := by
  rw [hexQuadVal, hexValT_hexDigitChar (Nat.mod_lt _ (by omega)),
    hexValT_hexDigitChar (Nat.mod_lt _ (by omega)),
    hexValT_hexDigitChar (Nat.mod_lt _ (by omega)),
    hexValT_hexDigitChar (Nat.mod_lt _ (by omega))]
  omega

theorem isHexDigit_hex4 (x : Nat) :
    (isHexDigit (hexDigitChar (x / 4096 % 16)) && isHexDigit (hexDigitChar (x / 256 % 16)) &&
     isHexDigit (hexDigitChar (x / 16 % 16)) && isHexDigit (hexDigitChar (x % 16))) = true := by
  rw [isHexDigit_hexDigitChar (Nat.mod_lt _ (by omega)),
    isHexDigit_hexDigitChar (Nat.mod_lt _ (by omega)),
    isHexDigit_hexDigitChar (Nat.mod_lt _ (by omega)),
    isHexDigit_hexDigitChar (Nat.mod_lt _ (by omega))]
  rfl

theorem escU_hex4 (m : Nat) (hm : m ≤ 0xffff) (tail : List Char) :
    escU (hex4 m ++ tail) = some (m, tail) := by
  rw [hex4]
  simp only [List.cons_append, List.nil_append]
  rw [escU, isHexDigit_hex4, if_pos rfl, hexQuadVal_hex4 m hm]

theorem scan_uescape (f m : Nat) (hm : m ≤ 0xffff) (tail : List Char) :
    scanUnits (f + 1) (uEscape m ++ tail) =
      (scanUnits f tail).map (fun q => (m :: q.1, q.2)) := by
  rw [uEscape]
  simp only [List.cons_append]
  rw [scanUnits, if_neg (by decide : ¬('\\' : Char) = '"'), if_pos (rfl : ('\\' : Char) = '\\'),
    escUnit, if_pos (rfl : ('u' : Char) = 'u'), escU_hex4 m hm tail]
  rfl

theorem scan_esc2 (f : Nat) (e d : Char) (he : escMap e = some d) (hu : ¬ e = 'u')
    (tail : List Char) :
    scanUnits (f + 1) ('\\' :: e :: tail) =
      (scanUnits f tail).map (fun q => (d.toNat :: q.1, q.2)) := by
  rw [scanUnits, if_neg (by decide : ¬('\\' : Char) = '"'), if_pos (rfl : ('\\' : Char) = '\\'),
    escUnit, if_neg hu, he]
  rfl

theorem scan_escape (cs rest : List Char) :
    ∀ f, (cs.flatMap escapeChar).length < f →
      scanUnits f (cs.flatMap escapeChar ++ '"' :: rest) = some (cs.flatMap charUnits, rest) := by
  induction cs with
  | nil =>
    intro f hf
    match f, hf with
    | f + 1, _ =>
      simp only [List.flatMap_nil, List.nil_append]
      rw [scanUnits, if_pos rfl]
  | cons c cs ih =>
    intro f hf
    rw [List.flatMap_cons, List.flatMap_cons, List.append_assoc]
    rw [List.flatMap_cons, List.length_append] at hf
    by_cases hq : c = '"'
    · subst hq
      match f, hf with
      | f + 1, hf =>
        rw [show escapeChar '"' = ['\\', '"'] from rfl] at hf ⊢
        rw [List.cons_append, List.cons_append, List.nil_append,
          scan_esc2 f '"' '"' rfl (by decide), ih f (by simp at hf ⊢; omega)]
        rfl
    · by_cases hbs : c = '\\'
      · subst hbs
        match f, hf with
        | f + 1, hf =>
          rw [show escapeChar '\\' = ['\\', '\\'] from rfl] at hf ⊢
          rw [List.cons_append, List.cons_append, List.nil_append,
            scan_esc2 f '\\' '\\' rfl (by decide), ih f (by simp at hf ⊢; omega)]
          rfl
      · by_cases h10 : c.toNat = 10
        · rw [char_eq_ofNat h10] at hf ⊢
          match f, hf with
          | f + 1, hf =>
            rw [show escapeChar (Char.ofNat 10) = ['\\', 'n'] from rfl] at hf ⊢
            rw [List.cons_append, List.cons_append, List.nil_append,
              scan_esc2 f 'n' (Char.ofNat 10) rfl (by decide), ih f (by simp at hf ⊢; omega)]
            rfl
        · by_cases h9 : c.toNat = 9
          · rw [char_eq_ofNat h9] at hf ⊢
            match f, hf with
            | f + 1, hf =>
              rw [show escapeChar (Char.ofNat 9) = ['\\', 't'] from rfl] at hf ⊢
              rw [List.cons_append, List.cons_append, List.nil_append,
                scan_esc2 f 't' (Char.ofNat 9) rfl (by decide), ih f (by simp at hf ⊢; omega)]
              rfl
          · by_cases h13 : c.toNat = 13
            · rw [char_eq_ofNat h13] at hf ⊢
              match f, hf with
              | f + 1, hf =>
                rw [show escapeChar (Char.ofNat 13) = ['\\', 'r'] from rfl] at hf ⊢
                rw [List.cons_append, List.cons_append, List.nil_append,
                  scan_esc2 f 'r' (Char.ofNat 13) rfl (by decide), ih f (by simp at hf ⊢; omega)]
                rfl
            · by_cases h8 : c.toNat = 8
              · rw [char_eq_ofNat h8] at hf ⊢
                match f, hf with
                | f + 1, hf =>
                  rw [show escapeChar (Char.ofNat 8) = ['\\', 'b'] from rfl] at hf ⊢
                  rw [List.cons_append, List.cons_append, List.nil_append,
                    scan_esc2 f 'b' (Char.ofNat 8) rfl (by decide), ih f (by simp at hf ⊢; omega)]
                  rfl
              · by_cases h12 : c.toNat = 12
                · rw [char_eq_ofNat h12] at hf ⊢
                  match f, hf with
                  | f + 1, hf =>
                    rw [show escapeChar (Char.ofNat 12) = ['\\', 'f'] from rfl] at hf ⊢
                    rw [List.cons_append, List.cons_append, List.nil_append,
                      scan_esc2 f 'f' (Char.ofNat 12) rfl (by decide), ih f (by simp at hf ⊢; omega)]
                    rfl
                · by_cases hrange : c.toNat < 32 ∨ 126 < c.toNat
                  · have hesc : escapeChar c =
                        (if c.toNat ≤ 0xffff then uEscape c.toNat
                         else uEscape (0xd800 + (c.toNat - 0x10000) / 1024) ++
                              uEscape (0xdc00 + (c.toNat - 0x10000) % 1024)) := by
                      rw [escapeChar]
                      rw [if_neg hq, if_neg hbs, if_neg h10, if_neg h9, if_neg h13,
                        if_neg h8, if_neg h12, if_pos hrange]
                    by_cases hbmp : c.toNat ≤ 0xffff
                    · rw [hesc, if_pos hbmp] at hf ⊢
                      have hcu : charUnits c = [c.toNat] := by
                        rw [charUnits, if_pos (by omega)]
                      match f, hf with
                      | f + 1, hf =>
                        rw [scan_uescape f c.toNat hbmp,
                          ih f (by rw [uEscape, hex4] at hf; simp at hf ⊢; omega), hcu]
                        rfl
                    · have hlt := char_toNat_lt c
                      rw [hesc, if_neg hbmp] at hf ⊢
                      have hcu : charUnits c = [0xd800 + (c.toNat - 0x10000) / 1024,
                          0xdc00 + (c.toNat - 0x10000) % 1024] := by
                        rw [charUnits, if_neg (by omega)]
                      rw [List.length_append, uEscape, uEscape, hex4, hex4] at hf
                      simp only [List.length_cons, List.length_nil] at hf
                      obtain ⟨f2, rfl⟩ : ∃ f2, f = f2 + 2 := ⟨f - 2, by omega⟩
                      rw [List.append_assoc,
                        scan_uescape (f2 + 1) (0xd800 + (c.toNat - 0x10000) / 1024) (by omega),
                        scan_uescape f2 (0xdc00 + (c.toNat - 0x10000) % 1024) (by omega),
                        ih f2 (by omega), hcu]
                      rfl
                  · have hesc : escapeChar c = [c] := by
                      rw [escapeChar]
                      rw [if_neg hq, if_neg hbs, if_neg h10, if_neg h9, if_neg h13,
                        if_neg h8, if_neg h12, if_neg hrange]
                    have hcu : charUnits c = [c.toNat] := by
                      rw [charUnits, if_pos (by omega)]
                    rw [hesc] at hf ⊢
                    match f, hf with
                    | f + 1, hf =>
                      rw [List.cons_append, List.nil_append, scanUnits, if_neg hq, if_neg hbs,
                        if_neg (by omega : ¬ c.toNat < 32), ih f (by simp at hf ⊢; omega), hcu]
                      rfl

theorem combine_charUnits (cs : List Char) : combineUnits (cs.flatMap charUnits) = some cs := by
  induction cs with
  | nil => rfl
  | cons c cs ih =>
    rw [List.flatMap_cons]
    by_cases hbmp : c.toNat < 0x10000
    · have hnos : ¬(0xd800 ≤ c.toNat ∧ c.toNat ≤ 0xdfff) := by
        rcases char_valid_toNat c with hv | hv
        · omega
        · omega
      rw [charUnits, if_pos hbmp]
      cases hUS : cs.flatMap charUnits with
      | nil =>
        rw [hUS] at ih
        have hcs : cs = [] := by
          have := ih
          simp only [combineUnits, Option.some.injEq] at this
          exact this.symm
        subst hcs
        rw [List.cons_append, List.nil_append]
        rw [combineUnits, if_neg hnos, Char.ofNat_toNat]
      | cons u2 us2 =>
        rw [List.cons_append, List.nil_append, combineUnits,
          if_neg (by omega : ¬(0xd800 ≤ c.toNat ∧ c.toNat ≤ 0xdbff)),
          if_neg (by omega : ¬(0xdc00 ≤ c.toNat ∧ c.toNat ≤ 0xdfff)),
          ← hUS, ih, Char.ofNat_toNat]
        rfl
    · have hlt := char_toNat_lt c
      rw [charUnits, if_neg hbmp]
      rw [List.cons_append, List.cons_append, List.nil_append, combineUnits,
        if_pos (by omega : 0xd800 ≤ 0xd800 + (c.toNat - 0x10000) / 1024 ∧
          0xd800 + (c.toNat - 0x10000) / 1024 ≤ 0xdbff),
        if_pos (by omega : 0xdc00 ≤ 0xdc00 + (c.toNat - 0x10000) % 1024 ∧
          0xdc00 + (c.toNat - 0x10000) % 1024 ≤ 0xdfff), ih]
      have hcomb : 0x10000 + 1024 * (0xd800 + (c.toNat - 0x10000) / 1024 - 0xd800) +
          (0xdc00 + (c.toNat - 0x10000) % 1024 - 0xdc00) = c.toNat := by omega
      rw [hcomb, Char.ofNat_toNat]
      rfl

theorem psb_escape (f : Nat) (cs rest : List Char)
    (hf : (cs.flatMap escapeChar).length < f) :
    parseStringBody f (cs.flatMap escapeChar ++ '"' :: rest) = some (cs, rest) := by
  rw [parseStringBody, scan_escape cs rest f hf]
  simp only [Option.bind, combine_charUnits, Option.map]

/-! ## Parser helper lemmas -/

theorem skipWs_cons_nonws {c : Char} (hws : isJsonWs c = false) (l : List Char) :
    skipWs (c :: l) = c :: l := by
  simp [skipWs, List.dropWhile, hws]

theorem skipWs_space (l : List Char) : skipWs (' ' :: l) = skipWs l := by
  simp [skipWs, List.dropWhile, isJsonWs]

theorem parseValue_ws (f : Nat) (l : List Char) : parseValue f (' ' :: l) = parseValue f l := by
  cases f with
  | zero => rfl
  | succ f =>
    simp only [parseValue]
    rw [skipWs_space]

theorem stringMk_data (s : String) : String.mk s.data = s := by
  cases s
  rfl

theorem numSafe_of_head {c : Char} (l : List Char) (h1 : isDigitC c = false) (h2 : c ≠ '.')
    (h3 : c ≠ 'e') (h4 : c ≠ 'E') : numSafe (c :: l) := ⟨h1, h2, h3, h4⟩

theorem numSafe_sepList (ys : List Json) (rest : List Char) :
    numSafe (dumpsSepList ys ++ ']' :: rest) := by
  cases ys with
  | nil =>
    rw [dumpsSepList, List.nil_append]
    exact numSafe_of_head _ (by decide) (by decide) (by decide) (by decide)
  | cons z zs =>
    rw [dumpsSepList, List.cons_append]
    exact numSafe_of_head _ (by decide) (by decide) (by decide) (by decide)

theorem numSafe_sepMembers (kvs : List (String × Json)) (rest : List Char) :
    numSafe (dumpsSepMembers kvs ++ '}' :: rest) := by
  cases kvs with
  | nil =>
    rw [dumpsSepMembers, List.nil_append]
    exact numSafe_of_head _ (by decide) (by decide) (by decide) (by decide)
  | cons kv kvs2 =>
    obtain ⟨k, v⟩ := kv
    rw [dumpsSepMembers, List.cons_append]
    exact numSafe_of_head _ (by decide) (by decide) (by decide) (by decide)

theorem intChars_head (n : Int) :
    ∃ c cs, intChars n = c :: cs ∧ (isDigitC c = true ∨ c = '-') := by
  rw [intChars]
  split
  · exact ⟨'-', natToChars n.natAbs, rfl, Or.inr rfl⟩
  · obtain ⟨c, t, hct⟩ : ∃ c t, natToChars n.toNat = c :: t := by
      cases hnc : natToChars n.toNat with
      | nil => exact absurd hnc (natToChars_ne_nil _)
      | cons c t => exact ⟨c, t, rfl⟩
    exact ⟨c, t, hct, Or.inl (natToChars_all_digit n.toNat c (by rw [hct]; exact List.mem_cons_self c t))⟩

theorem numHead_facts {c : Char} (h : isDigitC c = true ∨ c = '-') :
    isJsonWs c = false ∧ c ≠ 'n' ∧ c ≠ 't' ∧ c ≠ 'f' ∧ c ≠ '"' ∧ c ≠ '[' ∧ c ≠ '{' ∧
      c ≠ ']' := by
  rcases h with h | h
  · have hsp : c ≠ ' ' := digit_ne h (by decide)
    have htb : c ≠ '\t' := digit_ne h (by decide)
    have hnl : c ≠ '\n' := digit_ne h (by decide)
    have hcr : c ≠ Char.ofNat 13 := digit_ne h (by decide)
    refine ⟨by simp [isJsonWs, hsp, htb, hnl, hcr], digit_ne h (by decide),
      digit_ne h (by decide), digit_ne h (by decide), digit_ne h (by decide),
      digit_ne h (by decide), digit_ne h (by decide), digit_ne h (by decide)⟩
  · subst h
    refine ⟨by decide, by decide, by decide, by decide, by decide, by decide, by decide, by decide⟩

theorem dumps_head (v : Json) :
    ∃ c cs, dumps v = c :: cs ∧ isJsonWs c = false ∧ c ≠ ']' := by
  cases v with
  | null => exact ⟨'n', _, by rw [dumps], by decide, by decide⟩
  | bool b =>
    cases b with
    | true => exact ⟨'t', _, by rw [dumps, if_pos rfl], by decide, by decide⟩
    | false => exact ⟨'f', _, by rw [dumps, if_neg (by decide)], by decide, by decide⟩
  | int n =>
    obtain ⟨c, cs, hct, hc⟩ := intChars_head n
    obtain ⟨hws, _, _, _, _, _, _, hrb⟩ := numHead_facts hc
    exact ⟨c, cs, by rw [dumps, hct], hws, hrb⟩
  | str s => exact ⟨'"', _, by rw [dumps, strChars], by decide, by decide⟩
  | arr xs => exact ⟨'[', _, by rw [dumps], by decide, by decide⟩
  | obj kvs => exact ⟨'{', _, by rw [dumps], by decide, by decide⟩

/-! ## The parser recovers what the serializer produced -/

theorem parse_dumps_all (f : Nat) :
    (∀ v rest, (dumps v).length < f → numSafe rest →
      parseValue f (dumps v ++ rest) = some (v, rest)) ∧
    (∀ xs rest, (dumpsList xs).length + 2 ≤ f →
      parseArrTail f (dumpsList xs ++ ']' :: rest) = some (.arr xs, rest)) ∧
    (∀ xs rest, (dumpsSepList xs).length + 1 ≤ f →
      parseArrRest f (dumpsSepList xs ++ ']' :: rest) = some (xs, rest)) ∧
    (∀ kvs rest, (dumpsMembers kvs).length + 2 ≤ f →
      parseObjTail f (dumpsMembers kvs ++ '}' :: rest) = some (.obj kvs, rest)) ∧
    (∀ kvs rest, (dumpsSepMembers kvs).length + 1 ≤ f →
      parseObjRest f (dumpsSepMembers kvs ++ '}' :: rest) = some (kvs, rest)) := by
  induction f with
  | zero =>
    exact ⟨fun v rest h _ => absurd h (by omega), fun xs rest h => absurd h (by omega),
      fun xs rest h => absurd h (by omega), fun kvs rest h => absurd h (by omega),
      fun kvs rest h => absurd h (by omega)⟩
  | succ f ihf =>
    obtain ⟨ihP, ihQ, ihR, ihQO, ihRO⟩ := ihf
    refine ⟨?_, ?_, ?_, ?_, ?_⟩
    · intro v rest hlen hsafe
      cases v with
      | null =>
        rw [dumps]
        simp only [List.cons_append, List.nil_append]
        rw [parseValue, skipWs_cons_nonws (by decide)]
        rfl
      | bool b =>
        cases b with
        | true =>
          rw [dumps, if_pos rfl]
          simp only [List.cons_append, List.nil_append]
          rw [parseValue, skipWs_cons_nonws (by decide)]
          rfl
        | false =>
          rw [dumps, if_neg (by decide)]
          simp only [List.cons_append, List.nil_append]
          rw [parseValue, skipWs_cons_nonws (by decide)]
          rfl
      | int n =>
        obtain ⟨c, cs, hct, hc⟩ := intChars_head n
        obtain ⟨hws, hn, ht, hf2, hqt, hlb, hob, _⟩ := numHead_facts hc
        rw [dumps, hct, List.cons_append, parseValue, skipWs_cons_nonws hws]
        simp only [if_neg hn, if_neg ht, if_neg hf2, if_neg hqt, if_neg hlb, if_neg hob]
        rw [show c :: (cs ++ rest) = (c :: cs) ++ rest from rfl, ← hct,
          parseNumber_spec n rest hsafe]
      | str s =>
        rw [dumps, strChars] at hlen ⊢
        simp only [List.cons_append, List.append_assoc, List.singleton_append,
          List.nil_append]
        rw [parseValue, skipWs_cons_nonws (by decide)]
        simp only [if_neg (by decide : ¬('"' : Char) = 'n'),
          if_neg (by decide : ¬('"' : Char) = 't'), if_neg (by decide : ¬('"' : Char) = 'f'),
          if_pos (rfl : ('"' : Char) = '"'), if_true, if_false]
        simp only [List.length_cons, List.length_append, List.length_singleton,
          List.length_nil] at hlen
        rw [psb_escape f s.data rest (by omega)]
        simp only [Option.map_some', stringMk_data]
      | arr xs =>
        rw [dumps] at hlen ⊢
        simp only [List.cons_append, List.append_assoc, List.singleton_append,
          List.nil_append]
        rw [parseValue, skipWs_cons_nonws (by decide)]
        simp only [if_neg (by decide : ¬('[' : Char) = 'n'),
          if_neg (by decide : ¬('[' : Char) = 't'), if_neg (by decide : ¬('[' : Char) = 'f'),
          if_neg (by decide : ¬('[' : Char) = '"'), if_pos (rfl : ('[' : Char) = '[')]
        simp only [List.length_cons, List.length_append, List.length_singleton,
          List.length_nil] at hlen
        exact ihQ xs rest (by omega)
      | obj kvs =>
        rw [dumps] at hlen ⊢
        simp only [List.cons_append, List.append_assoc, List.singleton_append,
          List.nil_append]
        rw [parseValue, skipWs_cons_nonws (by decide)]
        simp only [if_neg (by decide : ¬('{' : Char) = 'n'),
          if_neg (by decide : ¬('{' : Char) = 't'), if_neg (by decide : ¬('{' : Char) = 'f'),
          if_neg (by decide : ¬('{' : Char) = '"'), if_neg (by decide : ¬('{' : Char) = '['),
          if_pos (rfl : ('{' : Char) = '{')]
        simp only [List.length_cons, List.length_append, List.length_singleton,
          List.length_nil] at hlen
        exact ihQO kvs rest (by omega)
    · intro xs rest hlen
      cases xs with
      | nil =>
        rw [dumpsList, List.nil_append, parseArrTail, skipWs_cons_nonws (by decide)]
        rfl
      | cons y ys =>
        obtain ⟨c, cs, hd, hws, hrb⟩ := dumps_head y
        rw [dumpsList] at hlen ⊢
        simp only [List.length_append] at hlen
        simp only [List.append_assoc]
        rw [hd, List.cons_append, parseArrTail, skipWs_cons_nonws hws]
        simp only [if_neg hrb]
        rw [show c :: (cs ++ (dumpsSepList ys ++ ']' :: rest)) =
          (c :: cs) ++ (dumpsSepList ys ++ ']' :: rest) from rfl, ← hd,
          ihP y (dumpsSepList ys ++ ']' :: rest) (by omega) (numSafe_sepList ys rest)]
        simp only []
        rw [ihR ys rest (by omega)]
    · intro xs rest hlen
      cases xs with
      | nil =>
        rw [dumpsSepList, List.nil_append, parseArrRest, skipWs_cons_nonws (by decide)]
        rfl
      | cons z zs =>
        rw [dumpsSepList] at hlen ⊢
        simp only [List.length_cons, List.length_append] at hlen
        simp only [List.cons_append, List.append_assoc]
        rw [parseArrRest, skipWs_cons_nonws (by decide)]
        simp only []
        rw [parseValue_ws, ihP z (dumpsSepList zs ++ ']' :: rest) (by omega)
          (numSafe_sepList zs rest)]
        simp only []
        rw [ihR zs rest (by omega)]
    · intro kvs rest hlen
      cases kvs with
      | nil =>
        rw [dumpsMembers, List.nil_append, parseObjTail, skipWs_cons_nonws (by decide)]
        rfl
      | cons kv kvs =>
        obtain ⟨k, v⟩ := kv
        rw [dumpsMembers, strChars] at hlen ⊢
        simp only [List.length_cons, List.length_append, List.length_singleton,
          List.length_nil] at hlen
        simp only [List.cons_append, List.append_assoc, List.singleton_append,
          List.nil_append]
        rw [parseObjTail, skipWs_cons_nonws (by decide)]
        simp only []
        rw [psb_escape f k.data (':' :: ' ' :: (dumps v ++ (dumpsSepMembers kvs ++ '}' :: rest)))
          (by omega)]
        simp only []
        rw [skipWs_cons_nonws (by decide : isJsonWs ':' = false)]
        simp only []
        rw [parseValue_ws, ihP v (dumpsSepMembers kvs ++ '}' :: rest) (by omega)
          (numSafe_sepMembers kvs rest)]
        simp only []
        rw [ihRO kvs rest (by omega)]
    · intro kvs rest hlen
      cases kvs with
      | nil =>
        rw [dumpsSepMembers, List.nil_append, parseObjRest, skipWs_cons_nonws (by decide)]
        rfl
      | cons kv kvs =>
        obtain ⟨k, v⟩ := kv
        rw [dumpsSepMembers, strChars] at hlen ⊢
        simp only [List.length_cons, List.length_append, List.length_singleton,
          List.length_nil] at hlen
        simp only [List.cons_append, List.append_assoc, List.singleton_append,
          List.nil_append]
        rw [parseObjRest, skipWs_cons_nonws (by decide : isJsonWs ',' = false)]
        simp only []
        rw [skipWs_space, skipWs_cons_nonws (by decide : isJsonWs '"' = false)]
        simp only []
        rw [psb_escape f k.data (':' :: ' ' :: (dumps v ++ (dumpsSepMembers kvs ++ '}' :: rest)))
          (by omega)]
        simp only []
        rw [skipWs_cons_nonws (by decide : isJsonWs ':' = false)]
        simp only []
        rw [parseValue_ws, ihP v (dumpsSepMembers kvs ++ '}' :: rest) (by omega)
          (numSafe_sepMembers kvs rest)]
        simp only []
        rw [ihRO kvs rest (by omega)]

/-! ## Codec round trip -/

theorem loads_dumps (v : Json) : loads (dumps v) = some v := by
  have hp := (parse_dumps_all ((dumps v).length + 1)).1 v [] (by omega) trivial
  rw [List.append_nil] at hp
  rw [loads, hp]
  rfl

theorem utf8Encode_cons (c : Char) (cs : List Char) :
    utf8Encode (c :: cs) = utf8EncodeChar c ++ utf8Encode cs := rfl

theorem utf8DecodeF_encode (cs : List Char) :
    ∀ f, (utf8Encode cs).length < f → utf8DecodeF f (utf8Encode cs) = some cs := by
  induction cs with
  | nil =>
    intro f hf
    obtain ⟨f2, rfl⟩ : ∃ f2, f = f2 + 1 := ⟨f - 1, by omega⟩
    rfl
  | cons c cs ih =>
    intro f hf
    rw [utf8Encode_cons] at hf ⊢
    rw [List.length_append] at hf
    obtain ⟨f2, rfl⟩ : ∃ f2, f = f2 + 1 := ⟨f - 1, by omega⟩
    rw [utf8EncodeChar] at hf ⊢
    have hv := char_valid_toNat c
    by_cases h1 : c.toNat < 0x80
    · rw [if_pos h1] at hf ⊢
      simp only [List.length_cons, List.length_nil] at hf
      rw [List.cons_append, List.nil_append, utf8DecodeF, if_pos h1,
        ih f2 (by omega), Char.ofNat_toNat]
      rfl
    · by_cases h2 : c.toNat < 0x800
      · rw [if_neg h1, if_pos h2] at hf ⊢
        simp only [List.length_cons, List.length_nil] at hf
        rw [List.cons_append, List.cons_append, List.nil_append, utf8DecodeF,
          if_neg (by omega : ¬ 0xc0 + c.toNat / 64 < 0x80),
          if_neg (by omega : ¬ 0xc0 + c.toNat / 64 < 0xc0),
          if_pos (by omega : 0xc0 + c.toNat / 64 < 0xe0), utf8Cont1,
          if_pos (by simp only [isCont, Bool.and_eq_true, decide_eq_true_eq]; omega)]
        have harith : (0xc0 + c.toNat / 64 - 0xc0) * 64 + (0x80 + c.toNat % 64 - 0x80) =
            c.toNat := by omega
        simp only [Option.some_bind]
        simp only [harith]
        rw [if_neg (by omega), ih f2 (by omega), Char.ofNat_toNat]
        rfl
      · by_cases h3 : c.toNat < 0x10000
        · rw [if_neg h1, if_neg h2, if_pos h3] at hf ⊢
          simp only [List.length_cons, List.length_nil] at hf
          rw [List.cons_append, List.cons_append, List.cons_append, List.nil_append,
            utf8DecodeF, if_neg (by omega : ¬ 0xe0 + c.toNat / 4096 < 0x80),
            if_neg (by omega : ¬ 0xe0 + c.toNat / 4096 < 0xc0),
            if_neg (by omega : ¬ 0xe0 + c.toNat / 4096 < 0xe0),
            if_pos (by omega : 0xe0 + c.toNat / 4096 < 0xf0), utf8Cont2,
            if_pos (by simp only [isCont, Bool.and_eq_true, decide_eq_true_eq]; omega)]
          have harith : (0xe0 + c.toNat / 4096 - 0xe0) * 4096 +
              (0x80 + c.toNat / 64 % 64 - 0x80) * 64 + (0x80 + c.toNat % 64 - 0x80) =
              c.toNat := by omega
          simp only [Option.some_bind]
          simp only [harith]
          rw [if_neg (by omega), ih f2 (by omega), Char.ofNat_toNat]
          rfl
        · rw [if_neg h1, if_neg h2, if_neg h3] at hf ⊢
          simp only [List.length_cons, List.length_nil] at hf
          have hlt := char_toNat_lt c
          rw [List.cons_append, List.cons_append, List.cons_append, List.cons_append,
            List.nil_append, utf8DecodeF,
            if_neg (by omega : ¬ 0xf0 + c.toNat / 262144 < 0x80),
            if_neg (by omega : ¬ 0xf0 + c.toNat / 262144 < 0xc0),
            if_neg (by omega : ¬ 0xf0 + c.toNat / 262144 < 0xe0),
            if_neg (by omega : ¬ 0xf0 + c.toNat / 262144 < 0xf0),
            if_pos (by omega : 0xf0 + c.toNat / 262144 < 0xf8), utf8Cont3,
            if_pos (by simp only [isCont, Bool.and_eq_true, decide_eq_true_eq]; omega)]
          have harith : (0xf0 + c.toNat / 262144 - 0xf0) * 262144 +
              (0x80 + c.toNat / 4096 % 64 - 0x80) * 4096 +
              (0x80 + c.toNat / 64 % 64 - 0x80) * 64 + (0x80 + c.toNat % 64 - 0x80) =
              c.toNat := by omega
          simp only [Option.some_bind]
          simp only [harith]
          rw [if_neg (by omega), ih f2 (by omega), Char.ofNat_toNat]
          rfl

theorem utf8Decode_encode (cs : List Char) : utf8Decode (utf8Encode cs) = some cs := by
  rw [utf8Decode, utf8DecodeF_encode cs _ (by omega)]

theorem unpack_pack (n : Nat) (h : n < 4294967296) :
    unpackLE [n % 256, n / 256 % 256, n / 65536 % 256, n / 16777216 % 256] = n := by
  rw [unpackLE]
  omega

theorem read_message_frame (b0 b1 b2 b3 : Nat) (tail : List Nat) :
    read_message (b0 :: b1 :: b2 :: b3 :: tail) =
      (if unpackLE [b0, b1, b2, b3] > 1048576 then (ReadResult.eof, tail)
       else readPayload (unpackLE [b0, b1, b2, b3]) tail) := by
  rfl

theorem codec_core (v : Json) (hlen : (utf8Encode (dumps v)).length ≤ 1048576)
    (extra : List Nat) :
    read_message (packLE4 (utf8Encode (dumps v)).length ++ (utf8Encode (dumps v) ++ extra)) =
      (.msg v, extra) := by
  rw [packLE4]
  simp only [List.cons_append, List.nil_append]
  rw [read_message_frame, unpack_pack _ (by omega), if_neg (by omega), readPayload,
    List.take_left, List.drop_left, utf8Decode_encode]
  simp only []
  rw [loads_dumps]

/-! ## Dispatcher evaluation helpers -/

/-- Evaluation of the `check` branch of the dispatcher for an arbitrary
message object carrying the `check` action. -/
theorem handle_check_general (env : HostEnv) (kvs : List (String × Json))
    (ha : isAction (dictGet kvs "action" (.str "")) "check" = true) :
    handle_message env (.obj kvs) =
      (if jsonTruthy (dictGet kvs "domains" (.arr [])) = false then .ok noDomainsResp
       else
         match check_domains env (dictGet kvs "domains" (.arr [])) with
         | .error e => .error e
         | .ok results =>
           .ok (.obj [("success", .bool true), ("action", .str "check"),
             ("results", .arr results)])) := by
  rw [handle_message, if_pos ha]
  cases hjt : jsonTruthy (dictGet kvs "domains" (.arr [])) <;> simp [hjt]

/-- Full evaluation of a `check` request whose domains value is a
nonempty list. -/
theorem handle_check_arr (env : HostEnv) (xs : List Json) (hne : xs ≠ []) :
    handle_message env (.obj [("action", .str "check"), ("domains", .arr xs)]) =
      .ok (.obj [("success", .bool true), ("action", .str "check"),
        ("results", .arr ((xs.take MAX_DOMAINS).filterMap
          (fun j => (sanitizeEntry j).map (check_domain env))))]) := by
  cases xs with
  | nil => exact absurd rfl hne
  | cons a t => rfl

/-! ## Claims -/

/-- C1 counterexample: the input `"ñ.com"` contains `'ñ'`, a character
outside the ASCII class `[a-z0-9.-]` (unchanged by trimming and
lower-casing), yet the sanitizer accepts it — Python's `isalnum` is
Unicode-aware — and the domain reaches `check_domain` (the subprocess
call) inside the check batch.  This refutes the claim as stated. -/
theorem C1_counterexample :
    sanitizeEntry (.str "ñ.com") = some "ñ.com" ∧
    ¬ (∀ c ∈ ("ñ.com" : String).data,
        ('a' ≤ c ∧ c ≤ 'z') ∨ ('0' ≤ c ∧ c ≤ '9') ∨ c = '.' ∨ c = '-') ∧
    check_domains envT (.arr [.str "ñ.com"]) = .ok [mkCheckResult "ñ.com" false false none] := by
  refine ⟨rfl, ?_, rfl⟩
  intro h
  have h2 := h 'ñ' (by decide)
  revert h2
  decide

/-- C1 (amended): the sanitizer rejects every non-string input and the
empty string, and rejects a string exactly when its stripped, lower-cased
form contains a character that is neither Python-alphanumeric (Unicode
`str.isalnum`, which also accepts non-ASCII letters such as `'ñ'`) nor
`'.'` nor `'-'`; `"example.com"` and `"sub.ex-ample.co"` are accepted
unchanged. -/
theorem C1_sanitizer_amended :
    (∀ j : Json, (∀ s, j ≠ .str s) → sanitizeEntry j = none) ∧
    sanitizeEntry (.str "") = none ∧
    (∀ s : String, ∀ c ∈ (pyLower (pyStrip s)).data,
      (pyIsAlnum c || c = '.' || c = '-') = false → sanitizeEntry (.str s) = none) ∧
    sanitizeEntry (.str "example.com") = some "example.com" ∧
    sanitizeEntry (.str "sub.ex-ample.co") = some "sub.ex-ample.co" := by
  refine ⟨?_, rfl, ?_, rfl, rfl⟩
  · intro j hj
    cases j with
    | str s => exact absurd rfl (hj s)
    | null => rfl
    | bool b => rfl
    | int n => rfl
    | arr xs => rfl
    | obj kvs => rfl
  · intro s c hc hbad
    rw [sanitizeEntry]
    by_cases he : s.data.isEmpty
    · rw [if_pos he]
    · rw [if_neg he, if_neg ?_]
      rw [List.all_eq_true]
      intro hall
      have h2 := hall c hc
      rw [hbad] at h2
      exact Bool.false_ne_true h2

/-- C1 witness: the amended theorem applied to the non-string input `7`
and to `"exa mple.com"` (whose space fails the character test). -/
theorem C1_witness :
    sanitizeEntry (.int 7) = none ∧ sanitizeEntry (.str "exa mple.com") = none :=
  ⟨C1_sanitizer_amended.1 (.int 7) (fun _ h => Json.noConfusion h),
   C1_sanitizer_amended.2.2.1 "exa mple.com" ' ' (by decide) (by decide)⟩

/-- C4: for every `check` request with a nonempty list of domains, only
the first `MAX_DOMAINS = 50` entries are considered, in input order; each
entry failing sanitization is dropped without affecting the others
(`filterMap` over the truncated list), the response holds exactly one
result per surviving domain in input order, and no exception escapes. -/
theorem C4_check_batch (env : HostEnv) (xs : List Json) (hne : xs ≠ []) :
    handle_message env (.obj [("action", .str "check"), ("domains", .arr xs)]) =
      .ok (.obj [("success", .bool true), ("action", .str "check"),
        ("results", .arr ((xs.take MAX_DOMAINS).filterMap
          (fun j => (sanitizeEntry j).map (check_domain env))))]) :=
  handle_check_arr env xs hne

/-- C4 witness: the spec's example — `["good.com", "bad domain"]` yields
exactly one result, for `"good.com"`. -/
theorem C4_witness :
    handle_message envT (.obj [("action", .str "check"),
        ("domains", .arr [.str "good.com", .str "bad domain"])]) =
      .ok (.obj [("success", .bool true), ("action", .str "check"),
        ("results", .arr [mkCheckResult "good.com" false false none])]) := by
  rw [C4_check_batch envT [.str "good.com", .str "bad domain"] (List.cons_ne_nil _ _)]
  rfl

/-- C2 counterexample: a stream delivering exactly two bytes before
closing makes `struct.unpack('@I', raw_length)` raise `struct.error`
(only a zero-byte read is mapped to `None`), so `read_message` raises
instead of signalling end-of-stream, and the loop dies on the exception.
This refutes the claim for 1–3 byte streams. -/
theorem C2_counterexample :
    read_message [65, 66] = (.err .structError, []) ∧
    (read_message [65, 66]).1 ≠ ReadResult.eof ∧
    runLoop envT 5 [65, 66] = .error .structError :=
  ⟨rfl, fun h => ReadResult.noConfusion h, rfl⟩

/-- C2 (amended): a stream that closes after delivering exactly 0 bytes
makes `read_message` signal end-of-stream and the loop terminate cleanly
with no response; a stream delivering 1–3 bytes makes `read_message`
raise `struct.error`, which also terminates the loop without a response,
but as an uncaught exception rather than a clean end-of-stream. -/
theorem C2_short_read_amended :
    (read_message [] = (.eof, []) ∧ ∀ env fuel, runLoop env fuel [] = .ok []) ∧
    (∀ input : List Nat, input ≠ [] → input.length < 4 →
      read_message input = (.err .structError, input.drop 4) ∧
      ∀ env fuel, runLoop env (fuel + 1) input = .error .structError) := by
  constructor
  · refine ⟨rfl, fun env fuel => ?_⟩
    cases fuel with
    | zero => rfl
    | succ f => rfl
  · intro input hne hlen
    cases input with
    | nil => exact absurd rfl hne
    | cons a t =>
      cases t with
      | nil => exact ⟨rfl, fun env fuel => rfl⟩
      | cons b t2 =>
        cases t2 with
        | nil => exact ⟨rfl, fun env fuel => rfl⟩
        | cons c t3 =>
          cases t3 with
          | nil => exact ⟨rfl, fun env fuel => rfl⟩
          | cons d t4 =>
            exfalso
            simp only [List.length_cons] at hlen
            omega

/-- C2 witness: the amended theorem applied to the two-byte stream
`[65, 66]`. -/
theorem C2_witness :
    read_message [65, 66] = (.err .structError, []) ∧
    runLoop envT 3 [65, 66] = .error .structError := by
  have h := C2_short_read_amended.2 [65, 66] (by simp) (by simp)
  exact ⟨h.1, h.2 envT 2⟩

/-- C3 counterexample: a `check` request whose `domains` field is the
number `5` (present, truthy, not a sequence) makes `check_domains` raise
`TypeError` (`domains[:50]` on an `int`), and the exception propagates
out of `handle_message` — there is no handler — so the peer gets no
structured `success:false` response; a loop fed one such frame dies with
the exception, emitting no response frame.  This refutes the claim as
stated. -/
theorem C3_counterexample :
    handle_message envT (.obj [("action", .str "check"), ("domains", .int 5)]) =
      .error .typeError ∧
    runLoop envT 4
        ([33, 0, 0, 0] ++ ("\x7b\"action\": \"check\", \"domains\": 5\x7d".data.map Char.toNat)) =
      .error .typeError :=
  ⟨rfl, rfl⟩

/-- C3 (amended): a request whose decoded body is not a JSON object gets
the structured `Invalid message format` failure; a `check` request whose
`domains` value is missing, empty or otherwise falsy gets the structured
`No domains provided` failure; but a `check` request whose `domains`
value is present, truthy and not a sequence (a number, `true`, or a
nonempty object) raises `TypeError` out of the handler, so the loop
aborts without sending a response for that message. -/
theorem C3_validation_amended :
    (∀ env msg, (∀ kvs, msg ≠ .obj kvs) → handle_message env msg = .ok invalidFormatResp) ∧
    (∀ env kvs, isAction (dictGet kvs "action" (.str "")) "check" = true →
      jsonTruthy (dictGet kvs "domains" (.arr [])) = false →
      handle_message env (.obj kvs) = .ok noDomainsResp) ∧
    (∀ env kvs n, isAction (dictGet kvs "action" (.str "")) "check" = true →
      dictGet kvs "domains" (.arr []) = .int n → n ≠ 0 →
      handle_message env (.obj kvs) = .error .typeError) ∧
    (∀ env kvs, isAction (dictGet kvs "action" (.str "")) "check" = true →
      dictGet kvs "domains" (.arr []) = .bool true →
      handle_message env (.obj kvs) = .error .typeError) := by
  refine ⟨?_, ?_, ?_, ?_⟩
  · intro env msg h
    cases msg with
    | obj kvs => exact absurd rfl (h kvs)
    | null => rfl
    | bool b => rfl
    | int n => rfl
    | str s => rfl
    | arr xs => rfl
  · intro env kvs ha hfalsy
    rw [handle_check_general env kvs ha, if_pos hfalsy]
  · intro env kvs n ha hdv hn
    rw [handle_check_general env kvs ha, hdv,
      if_neg (by simp [jsonTruthy, hn]), check_domains]
    · intro xs hx
      exact Json.noConfusion hx
    · intro s hx
      exact Json.noConfusion hx
  · intro env kvs ha hdv
    rw [handle_check_general env kvs ha, hdv, if_neg (by simp [jsonTruthy]), check_domains]
    · intro xs hx
      exact Json.noConfusion hx
    · intro s hx
      exact Json.noConfusion hx

/-- C3 witness: the amended theorem applied to a non-object message, a
missing `domains` field, and the numeric `domains` value `5`. -/
theorem C3_witness :
    handle_message envT (.int 3) = .ok invalidFormatResp ∧
    handle_message envT (.obj [("action", .str "check")]) = .ok noDomainsResp ∧
    handle_message envT (.obj [("action", .str "check"), ("domains", .int 5)]) =
      .error .typeError :=
  ⟨C3_validation_amended.1 envT (.int 3) (fun _ h => Json.noConfusion h),
   C3_validation_amended.2.1 envT [("action", .str "check")] rfl rfl,
   C3_validation_amended.2.2.1 envT [("action", .str "check"), ("domains", .int 5)] 5 rfl rfl
     (by decide)⟩

/-- C5: a frame whose 4-byte native-order length prefix decodes above
1,048,576 makes `read_message` signal end-of-stream, consuming only the
4 prefix bytes (the declared payload stays on the stream), and the loop
then terminates having sent no response; a declared length of at most
1,048,576 passes the guard and proceeds to the payload phase. -/
theorem C5_oversize_guard (b0 b1 b2 b3 : Nat) (tail : List Nat) :
    (unpackLE [b0, b1, b2, b3] > 1048576 →
      read_message (b0 :: b1 :: b2 :: b3 :: tail) = (.eof, tail) ∧
      ∀ env fuel, runLoop env fuel (b0 :: b1 :: b2 :: b3 :: tail) = .ok []) ∧
    (unpackLE [b0, b1, b2, b3] ≤ 1048576 →
      read_message (b0 :: b1 :: b2 :: b3 :: tail) =
        readPayload (unpackLE [b0, b1, b2, b3]) tail) := by
  constructor
  · intro h
    constructor
    · rw [read_message_frame, if_pos h]
    · intro env fuel
      cases fuel with
      | zero => rfl
      | succ f =>
        rw [runLoop, read_message_frame, if_pos h]
  · intro h
    rw [read_message_frame, if_neg (by omega)]

/-- C5 witness: a declared length of `0x110000 > 1048576` is dropped as
end-of-stream with the payload bytes unconsumed and no response sent,
while a declared length of 4 proceeds to the payload phase and decodes
the frame. -/
theorem C5_witness :
    read_message [0, 0, 17, 0, 9, 9] = (.eof, [9, 9]) ∧
    runLoop envT 9 [0, 0, 17, 0, 9, 9] = .ok [] ∧
    read_message [4, 0, 0, 0, 116, 114, 117, 101, 7] = (.msg (.bool true), [7]) := by
  have h1 := (C5_oversize_guard 0 0 17 0 [9, 9]).1 (by decide)
  have h2 := (C5_oversize_guard 4 0 0 0 [116, 114, 117, 101, 7]).2 (by decide)
  exact ⟨h1.1, h1.2 envT 9, h2.trans rfl⟩

/-- C6: when the whitelist subprocess for a domain times out or fails to
launch, its `DomainCheckResult` echoes the domain with
`in_whitelist = false`, `resolves = false` and `resolved_ip = null`, the
failure does not raise (it is only logged), and the overall `check`
response for a nonempty batch is still `success:true`, whatever the
subprocess outcomes. -/
theorem C6_subprocess_failure :
    (∀ env d, env.check d = .timedOut →
      check_domain env d = mkCheckResult d false false none) ∧
    (∀ env d m, env.check d = .failed m →
      check_domain env d = mkCheckResult d false false none) ∧
    (∀ env (xs : List Json), xs ≠ [] →
      handle_message env (.obj [("action", .str "check"), ("domains", .arr xs)]) =
        .ok (.obj [("success", .bool true), ("action", .str "check"),
          ("results", .arr ((xs.take MAX_DOMAINS).filterMap
            (fun j => (sanitizeEntry j).map (check_domain env))))])) := by
  refine ⟨?_, ?_, fun env xs hne => handle_check_arr env xs hne⟩
  · intro env d h
    rw [check_domain, h]
  · intro env d m h
    rw [check_domain, h]

/-- C6 witness: in the all-timeout environment, checking `"x.com"` gives
the default result and the batch response is still successful. -/
theorem C6_witness :
    check_domain envT "x.com" = mkCheckResult "x.com" false false none ∧
    handle_message envT (.obj [("action", .str "check"), ("domains", .arr [.str "x.com"])]) =
      .ok (.obj [("success", .bool true), ("action", .str "check"),
        ("results", .arr [mkCheckResult "x.com" false false none])]) := by
  refine ⟨C6_subprocess_failure.1 envT "x.com" rfl, ?_⟩
  rw [C6_subprocess_failure.2.2 envT [.str "x.com"] (List.cons_ne_nil _ _)]
  rfl

/-- C7: the `update-whitelist` contract — script absent gives the
`Update script not found` failure without consulting the update process;
a run with nonzero exit gives `success:false` with the captured stderr as
the error; a timeout gives `success:false` with `Update timed out`; exit
zero gives `success:true` with a null error. -/
theorem C7_update_whitelist :
    (∀ env, env.updateScriptExists = false →
      handle_message env (.obj [("action", .str "update-whitelist")]) =
        .ok (.obj [("success", .bool false), ("action", .str "update-whitelist"),
          ("error", .str "Update script not found")])) ∧
    (∀ env out err code, env.updateScriptExists = true → env.update = .finished out err code →
      code ≠ 0 →
      handle_message env (.obj [("action", .str "update-whitelist")]) =
        .ok (.obj [("success", .bool false), ("action", .str "update-whitelist"),
          ("output", .str out), ("error", .str err)])) ∧
    (∀ env out err, env.updateScriptExists = true → env.update = .finished out err 0 →
      handle_message env (.obj [("action", .str "update-whitelist")]) =
        .ok (.obj [("success", .bool true), ("action", .str "update-whitelist"),
          ("output", .str out), ("error", .null)])) ∧
    (∀ env, env.updateScriptExists = true → env.update = .timedOut →
      handle_message env (.obj [("action", .str "update-whitelist")]) =
        .ok (.obj [("success", .bool false), ("action", .str "update-whitelist"),
          ("error", .str "Update timed out")])) := by
  refine ⟨?_, ?_, ?_, ?_⟩
  · intro env hex
    simp [handle_message, dictGet, isAction, hex]
  · intro env out err code hex hupd hcode
    simp [handle_message, dictGet, isAction, hex, hupd, hcode]
  · intro env out err hex hupd
    simp [handle_message, dictGet, isAction, hex, hupd]
  · intro env hex hupd
    simp [handle_message, dictGet, isAction, hex, hupd]

/-- C7 witness: the four branches at concrete environments. -/
theorem C7_witness :
    handle_message envT (.obj [("action", .str "update-whitelist")]) =
      .ok (.obj [("success", .bool false), ("action", .str "update-whitelist"),
        ("error", .str "Update script not found")]) ∧
    handle_message envUfail (.obj [("action", .str "update-whitelist")]) =
      .ok (.obj [("success", .bool false), ("action", .str "update-whitelist"),
        ("output", .str "partial"), ("error", .str "boom")]) ∧
    handle_message envUok (.obj [("action", .str "update-whitelist")]) =
      .ok (.obj [("success", .bool true), ("action", .str "update-whitelist"),
        ("output", .str "done"), ("error", .null)]) ∧
    handle_message envUtime (.obj [("action", .str "update-whitelist")]) =
      .ok (.obj [("success", .bool false), ("action", .str "update-whitelist"),
        ("error", .str "Update timed out")]) :=
  ⟨C7_update_whitelist.1 envT rfl,
   C7_update_whitelist.2.1 envUfail "partial" "boom" 2 rfl rfl (by decide),
   C7_update_whitelist.2.2.1 envUok "done" "" rfl rfl,
   C7_update_whitelist.2.2.2 envUtime rfl rfl⟩

/-- C8: for every well-formed JSON value whose UTF-8 encoding fits the
1 MiB frame cap, writing it with `send_message` and reading the produced
bytes back with `read_message` yields exactly the original value,
consuming exactly the frame (any following bytes are left on the
stream). -/
theorem C8_codec_roundtrip (v : Json) (hwf : wfB v = true)
    (hlen : (utf8Encode (dumps v)).length ≤ 1048576) (extra : List Nat) :
    send_message v =
      .ok (packLE4 (utf8Encode (dumps v)).length ++ utf8Encode (dumps v)) ∧
    read_message ((packLE4 (utf8Encode (dumps v)).length ++ utf8Encode (dumps v)) ++ extra) =
      (.msg v, extra) := by
  constructor
  · rw [send_message, if_pos (by omega)]
  · rw [List.append_assoc]
    exact codec_core v hlen extra

/-- C8 witness: round trip of a concrete nested value, with two stray
bytes left on the stream. -/
theorem C8_witness :
    send_message (.obj [("a", .arr [.int (-12), .str "hé", .null, .bool true])]) =
      .ok (packLE4 (utf8Encode (dumps (.obj [("a", .arr [.int (-12), .str "hé", .null,
          .bool true])]))).length ++
        utf8Encode (dumps (.obj [("a", .arr [.int (-12), .str "hé", .null, .bool true])]))) ∧
    read_message ((packLE4 (utf8Encode (dumps (.obj [("a", .arr [.int (-12), .str "hé", .null,
          .bool true])]))).length ++
        utf8Encode (dumps (.obj [("a", .arr [.int (-12), .str "hé", .null, .bool true])]))) ++
        [7, 7]) =
      (.msg (.obj [("a", .arr [.int (-12), .str "hé", .null, .bool true])]), [7, 7]) := by
  have hd : dumps (.obj [("a", .arr [.int (-12), .str "hé", .null, .bool true])]) =
      "\x7b\"a\": [-12, \"h\\u00e9\", null, true]\x7d".data := by
    simp [dumps, dumpsMembers, dumpsSepMembers, dumpsList, dumpsSepList, strChars, intChars,
      natToChars, digitChar, escapeChar, uEscape, hex4, hexDigitChar]
  exact C8_codec_roundtrip (.obj [("a", .arr [.int (-12), .str "hé", .null, .bool true])])
    (by simp [wfB, hasKeyB]) (by rw [hd]; decide) [7, 7]

/-- C9: the two script variants' dispatchers agree on every message whose
action is not `get-hostname` and not `update-whitelist` — in particular
on `check`, `list`, `status`, `ping`, non-object messages, and every
unknown action — given the same subprocess environment.  (On the two
excluded actions the legacy variant answers with the unknown-action
failure while the openpath variant implements them.) -/
theorem C9_dispatcher_equiv (env : HostEnv) (msg : Json)
    (h1 : ¬ isAction (actionOf msg) "get-hostname" = true)
    (h2 : ¬ isAction (actionOf msg) "update-whitelist" = true) :
    legacy_handle_message env msg = handle_message env msg := by
  cases msg with
  | obj kvs =>
    rw [actionOf] at h1 h2
    simp [legacy_handle_message, handle_message, h1, h2]
  | null => rfl
  | bool b => rfl
  | int n => rfl
  | str s => rfl
  | arr xs => rfl

/-- C9 witness: both dispatchers at a `ping` request, an unknown action,
and a `check` request, in the all-timeout environment. -/
theorem C9_witness :
    legacy_handle_message envT (.obj [("action", .str "ping")]) =
      handle_message envT (.obj [("action", .str "ping")]) ∧
    legacy_handle_message envT (.obj [("action", .str "frobnicate")]) =
      handle_message envT (.obj [("action", .str "frobnicate")]) ∧
    legacy_handle_message envT (.obj [("action", .str "check"), ("domains", .arr [.str "a.com"])]) =
      handle_message envT (.obj [("action", .str "check"), ("domains", .arr [.str "a.com"])]) :=
  ⟨C9_dispatcher_equiv envT (.obj [("action", .str "ping")]) (by decide) (by decide),
   C9_dispatcher_equiv envT (.obj [("action", .str "frobnicate")]) (by decide) (by decide),
   C9_dispatcher_equiv envT (.obj [("action", .str "check"), ("domains", .arr [.str "a.com"])])
     (by decide) (by decide)⟩

/-- C10 counterexample: with `domains` present and equal to the number
`0` — neither missing, nor an empty list, nor an empty string — the
`check` handler still answers `No domains provided` (Python truthiness:
`not 0` is true).  This refutes the "produced only when missing or
empty" part of the claim. -/
theorem C10_counterexample :
    handle_message envT (.obj [("action", .str "check"), ("domains", .int 0)]) =
      .ok noDomainsResp ∧
    dictGet [("action", Json.str "check"), ("domains", Json.int 0)] "domains" (.arr []) =
      .int 0 ∧
    Json.int 0 ≠ .arr [] ∧ Json.int 0 ≠ .str "" :=
  ⟨rfl, rfl, fun h => Json.noConfusion h, fun h => Json.noConfusion h⟩

/-- C10 (amended): a `check` request whose `domains` value is a nonempty
list in which every entry fails sanitization answers
`success:true, results:[]`; and the `No domains provided` failure is
produced exactly when the `domains` value is falsy — missing, `null`,
`false`, `0`, the empty string, an empty list or an empty object. -/
theorem C10_empty_results_amended :
    (∀ env (xs : List Json), xs ≠ [] → (∀ j ∈ xs, sanitizeEntry j = none) →
      handle_message env (.obj [("action", .str "check"), ("domains", .arr xs)]) =
        .ok (.obj [("success", .bool true), ("action", .str "check"),
          ("results", .arr [])])) ∧
    (∀ env kvs, isAction (dictGet kvs "action" (.str "")) "check" = true →
      (handle_message env (.obj kvs) = .ok noDomainsResp ↔
        jsonTruthy (dictGet kvs "domains" (.arr [])) = false)) := by
  constructor
  · intro env xs hne hall
    rw [handle_check_arr env xs hne]
    have hnil : (xs.take MAX_DOMAINS).filterMap
        (fun j => (sanitizeEntry j).map (check_domain env)) = [] := by
      rw [List.filterMap_eq_nil_iff]
      intro j hj
      rw [hall j (List.take_subset MAX_DOMAINS xs hj)]
      rfl
    rw [hnil]
  · intro env kvs ha
    rw [handle_check_general env kvs ha]
    cases hjt : jsonTruthy (dictGet kvs "domains" (.arr [])) with
    | false =>
      rw [if_pos rfl]
      simp
    | true =>
      rw [if_neg (by simp)]
      constructor
      · intro habs
        exfalso
        cases hdv : dictGet kvs "domains" (.arr []) with
        | null => rw [hdv] at hjt; exact Bool.noConfusion hjt
        | bool b =>
          rw [hdv] at hjt habs
          cases b with
          | false => exact Bool.noConfusion hjt
          | true =>
            rw [check_domains] at habs
            · exact Except.noConfusion habs
            · intro xs hx; exact Json.noConfusion hx
            · intro s hx; exact Json.noConfusion hx
        | int n =>
          rw [hdv] at hjt habs
          rw [check_domains] at habs
          · exact Except.noConfusion habs
          · intro xs hx; exact Json.noConfusion hx
          · intro s hx; exact Json.noConfusion hx
        | str s =>
          rw [hdv] at habs
          rw [check_domains] at habs
          simp only [Except.ok.injEq] at habs
          rw [noDomainsResp] at habs
          simp at habs
        | arr xs =>
          rw [hdv] at habs
          rw [check_domains] at habs
          simp only [Except.ok.injEq] at habs
          rw [noDomainsResp] at habs
          simp at habs
        | obj kvs2 =>
          rw [hdv] at hjt habs
          rw [check_domains] at habs
          · exact Except.noConfusion habs
          · intro xs hx; exact Json.noConfusion hx
          · intro s hx; exact Json.noConfusion hx
      · intro habs
        exact absurd habs (by decide)

/-- C10 witness: a batch of two all-invalid entries yields the empty
result list under `success:true`, while a falsy `domains` value (`0`)
yields the failure via the iff. -/
theorem C10_witness :
    handle_message envT (.obj [("action", .str "check"),
        ("domains", .arr [.str "bad domain", .str "a;b"])]) =
      .ok (.obj [("success", .bool true), ("action", .str "check"), ("results", .arr [])]) ∧
    handle_message envT (.obj [("action", .str "check"), ("domains", .int 0)]) =
      .ok noDomainsResp :=
  ⟨C10_empty_results_amended.1 envT [.str "bad domain", .str "a;b"] (List.cons_ne_nil _ _)
      (by
        intro j hj
        simp only [List.mem_cons, List.not_mem_nil, or_false] at hj
        rcases hj with h | h <;> subst h <;> rfl),
   (C10_empty_results_amended.2 envT [("action", .str "check"), ("domains", .int 0)] rfl).mpr
      rfl⟩

end Whitelist
